import Mathlib

/-! A verification development for `rsms/go-testutil`.

The Go package `testutil` (file `testutil.go`) offers assertion helpers layered
over `*testing.T`: `Assert.Ok`, `Assert.Err`, `Assert.NoErr`, `Assert.Eq`,
`Assert.Panic`, plus `Repr` and `RecoverAsFail`.

The embedding is shallow:

* a Go `interface{}` value is a `GoValue` (the nil interface, or a value of a
  concrete dynamic type); the dynamic type is computed by `GoValue.typ`;
* `*testing.T` is the record `T` (the log written so far and the failed flag),
  passed explicitly through every method;
* a Go call that may panic returns an `Outcome`;
* what the package imports from outside the repository (the `regexp` engine,
  the Unicode case table, `fmt` verbs, `kr/pretty`, `debug.Stack`) is the
  parameter `Lib`.
-/

namespace Testutil

/-! ## Go types -/

/-- The declaration of one struct field, as far as the identity of the struct
type depends on it: the name (qualified by the package for a name that is not
exported), the tag, and whether the field is embedded. -/
structure FieldDecl where
  name : String
  tag : String
  embedded : Bool
  deriving DecidableEq

/-- Go types of the value universe. A function type is known by its
signature, a struct type by the declarations and the types of its fields, and
a defined type by its qualified name and its underlying type. -/
inductive GoType where
  | bool
  | int
  | int64
  | uint8
  | float64
  | string
  | ptr (elem : GoType)
  | slice (elem : GoType)
  | array (len : Nat) (elem : GoType)
  | map (key elem : GoType)
  | func (params results : List GoType) (variadic : Bool)
  | struct (decls : List FieldDecl) (fields : List GoType)
  | named (name : String) (underlying : GoType)
  | iface

namespace GoType

mutual
/-- Identity of two types, as the `!=` of `reflect.Type` values decides it. -/
def beq : GoType → GoType → Bool
  | .bool, .bool => true
  | .int, .int => true
  | .int64, .int64 => true
  | .uint8, .uint8 => true
  | .float64, .float64 => true
  | .string, .string => true
  | .func p r v, .func q s w => beqList p q && beqList r s && v == w
  | .iface, .iface => true
  | .ptr a, .ptr b => beq a b
  | .slice a, .slice b => beq a b
  | .array n a, .array m b => n == m && beq a b
  | .map k a, .map l b => beq k l && beq a b
  | .struct ds fs, .struct es gs => decide (ds = es) && beqList fs gs
  | .named n a, .named m b => n == m && beq a b
  | _, _ => false
/-- Identity of two field-type lists. -/
def beqList : List GoType → List GoType → Bool
  | [], [] => true
  | a :: as, b :: bs => beq a b && beqList as bs
  | _, _ => false
end

mutual
/-- The method `reflect.Type.Comparable`: false for functions, maps and slices,
for an array of a non-comparable element type and for a struct with a
non-comparable field type; true for everything else, interface types
included. A defined type is comparable when its underlying type is. -/
def Comparable : GoType → Bool
  | .func _ _ _ => false
  | .map _ _ => false
  | .slice _ => false
  | .array _ e => Comparable e
  | .struct _ fs => ComparableAll fs
  | .named _ t => Comparable t
  | _ => true
/-- All field types are comparable. -/
def ComparableAll : List GoType → Bool
  | [] => true
  | t :: ts => Comparable t && ComparableAll ts
end

end GoType

/-! ## Go values -/

/-- A Go value as seen through `interface{}`.

* `nil` is the nil interface value (no dynamic type);
* integers are mathematical integers, kept in range by `GoValue.wf`;
* `float64` carries the IEEE 754 bit pattern;
* `ptr`, `slice`, `map` and `func` carry the address they refer to, `0` being
  the nil pointer, nil slice, nil map and nil func;
* `named n v` is the value of the defined type `n` whose representation is
  `v`, a value of the underlying type;
* `iface d` is what an interface-typed array element or struct field holds:
  the dynamic value `d`, which is `nil` or a value of concrete type. -/
inductive GoValue where
  | nil
  | bool (b : Bool)
  | int (n : Int)
  | int64 (n : Int)
  | uint8 (b : Nat)
  | float64 (bits : Nat)
  | string (s : String)
  | ptr (elem : GoType) (addr : Nat)
  | slice (elem : GoType) (data : Nat) (elems : List GoValue)
  | array (elem : GoType) (elems : List GoValue)
  | map (key elem : GoType) (ref : Nat) (keys vals : List GoValue)
  | func (params results : List GoType) (variadic : Bool) (ref : Nat)
  | struct (decls : List FieldDecl) (fields : List GoValue)
  | named (name : String) (v : GoValue)
  | iface (dyn : GoValue)

namespace GoValue

/-- The interface comparison `v == nil`. -/
def isNil : GoValue → Bool
  | .nil => true
  | _ => false

/-- The value sits in an interface-typed slot. -/
def isIface : GoValue → Bool
  | .iface _ => true
  | _ => false

/-- The value is of a defined type. -/
def isNamed : GoValue → Bool
  | .named _ _ => true
  | _ => false

mutual
/-- The type of a value: the dynamic type of a concrete value, and the
interface type for the content of an interface-typed slot. -/
def typ : GoValue → GoType
  | .nil => .iface
  | .bool _ => .bool
  | .int _ => .int
  | .int64 _ => .int64
  | .uint8 _ => .uint8
  | .float64 _ => .float64
  | .string _ => .string
  | .ptr e _ => .ptr e
  | .slice e _ _ => .slice e
  | .array e es => .array es.length e
  | .map k e _ _ _ => .map k e
  | .func p r v _ => .func p r v
  | .struct ds fs => .struct ds (typs fs)
  | .named n v => .named n (typ v)
  | .iface _ => .iface
/-- The types of the fields of a struct value. -/
def typs : List GoValue → List GoType
  | [] => []
  | v :: vs => typ v :: typs vs
end

end GoValue

namespace GoValue

/-- The byte held by a `uint8` value. -/
def toByte : GoValue → Nat
  | .uint8 b => b
  | _ => 0

/-- The type assertion `v.([]byte)`: the bytes of a byte slice, `none` for a
value of any other dynamic type, a defined type with underlying type `[]byte`
included. -/
def asBytes : GoValue → Option (List Nat)
  | .slice .uint8 _ elems => some (elems.map toByte)
  | _ => none

/-- The address a reference-like value carries (`0` for the other kinds, whose
boxed copy has an address the model does not track). -/
def dataWord : GoValue → Nat
  | .ptr _ addr => addr
  | .slice _ data _ => data
  | .map _ _ ref _ _ => ref
  | .func _ _ _ ref => ref
  | _ => 0

mutual
/-- Well-formedness of a value of concrete type or of an interface-typed slot:
integers fit their width, a nil slice or nil map has no elements, the elements
of a slice, array or map have the declared type, a struct has one declaration
per field, a value of a defined type is represented by a value of a type that
is not itself defined, and an interface-typed slot holds `nil` or a value of
concrete type. -/
def wf : GoValue → Bool
  | .nil => false
  | .bool _ => true
  | .int n => decide (-(2:Int)^63 ≤ n) && decide (n < (2:Int)^63)
  | .int64 n => decide (-(2:Int)^63 ≤ n) && decide (n < (2:Int)^63)
  | .uint8 b => decide (b < 256)
  | .float64 bits => decide (bits < 2^64)
  | .string _ => true
  | .ptr _ _ => true
  | .slice e data es => (data != 0 || es.isEmpty) && wfAll e es
  | .array e es => wfAll e es
  | .map k e ref ks vs =>
      (ref != 0 || ks.isEmpty) && ks.length == vs.length && k.Comparable
        && wfAll k ks && wfAll e vs
  | .func _ _ _ _ => true
  | .struct ds fs => ds.length == fs.length && wfFields fs
  | .named _ v => !v.isNil && !v.isIface && !v.isNamed && wf v
  | .iface d => d.isNil || (!d.isIface && wf d)
/-- Every element is well formed and of type `t`. -/
def wfAll : GoType → List GoValue → Bool
  | _, [] => true
  | t, v :: vs => GoType.beq (typ v) t && wf v && wfAll t vs
/-- Every field is well formed. -/
def wfFields : List GoValue → Bool
  | [] => true
  | v :: vs => wf v && wfFields vs
end

/-- A value that can be passed as an `interface{}` argument: the nil interface
or a well-formed value of concrete type. -/
def validArg (v : GoValue) : Bool :=
  v.isNil || (!v.isIface && v.wf)

end GoValue

mutual
/-- The zero value of a type. -/
def zeroValue : GoType → GoValue
  | .bool => .bool false
  | .int => .int 0
  | .int64 => .int64 0
  | .uint8 => .uint8 0
  | .float64 => .float64 0
  | .string => .string ""
  | .ptr e => .ptr e 0
  | .slice e => .slice e 0 []
  | .array n e => .array e (List.replicate n (zeroValue e))
  | .map k e => .map k e 0 [] []
  | .func p r v => .func p r v 0
  | .struct ds fs => .struct ds (zeroValues fs)
  | .named n t => .named n (zeroValue t)
  | .iface => .iface .nil
/-- The zero values of a list of field types. -/
def zeroValues : List GoType → List GoValue
  | [] => []
  | t :: ts => zeroValue t :: zeroValues ts
end

/-! ## The `reflect` package -/

/-- The function `reflect.TypeOf`: the dynamic type, and the nil `Type` for
the nil interface. -/
def TypeOf (i : GoValue) : Option GoType :=
  if i.isNil then none else some i.typ

/-- The comparison `t1 == t2` of two `reflect.Type` values. -/
def typeEq : Option GoType → Option GoType → Bool
  | none, none => true
  | some a, some b => GoType.beq a b
  | _, _ => false

/-- What a panic carries: a value given to `panic`, or an error raised by the
runtime or a library, known by the text of its `Error` method. -/
inductive Payload where
  | value (v : GoValue)
  | error (msg : String)

/-- The result of `recover()` compared with `nil`. A `panic(nil)` is recovered
as `nil` (the behaviour of the Go releases before 1.21, kept by later releases
for modules declaring an older language version). -/
def Payload.isNil : Payload → Bool
  | .value v => v.isNil
  | .error _ => false

/-- How a Go call ends: it returns, or it panics. -/
inductive Outcome (α : Type) where
  | ret (a : α)
  | panic (p : Payload)

/-- The `b && r` of Go with a right operand that may panic: `r` is evaluated
only when `b` is true. -/
def Outcome.andThen (b : Bool) (r : Outcome Bool) : Outcome Bool :=
  if b then r else .ret false

/-- A `reflect.Value`: the value, the address of its storage and the flag
`flagAddr`. -/
structure Value where
  v : GoValue
  ptr : Nat
  flagAddr : Bool

/-- The function `reflect.ValueOf`: the result is never addressable. -/
def ValueOf (i : GoValue) : Value :=
  { v := i, ptr := i.dataWord, flagAddr := false }

/-- The method `reflect.Value.CanAddr`. -/
def Value.CanAddr (x : Value) : Bool := x.flagAddr

/-- The method `reflect.Value.UnsafeAddr`: panics on a value that is not
addressable. -/
def Value.UnsafeAddr (x : Value) : Outcome Nat :=
  if x.flagAddr then .ret x.ptr
  else .panic (.value (.string "reflect.Value.UnsafeAddr of unaddressable value"))

/-- The comparison `v1.UnsafeAddr() == v2.UnsafeAddr()`, left operand first. -/
def Value.sameAddr (x y : Value) : Outcome Bool :=
  match x.UnsafeAddr with
  | .panic p => .panic p
  | .ret a =>
    match y.UnsafeAddr with
    | .panic p => .panic p
    | .ret b => .ret (a == b)

mutual
/-- The body of `reflect.Value.IsZero` on a valid value: a number is zero when
it is `0`, a string when it is empty, an array or struct when every element or
field is zero, and a pointer, slice, map, func or interface when it is nil.
The releases of Go differ on one value, the negative zero of a float: it is
not zero up to Go 1.20, where the bit pattern is tested against `0`, and it is
zero since Go 1.22, where the float is compared with `0`; `negZeroIsZero` says
which. -/
def isZero (negZeroIsZero : Bool) : GoValue → Bool
  | .nil => true
  | .bool b => !b
  | .int n => n == 0
  | .int64 n => n == 0
  | .uint8 b => b == 0
  | .float64 bits => if negZeroIsZero then bits % 2^63 == 0 else bits == 0
  | .string s => s.length == 0
  | .ptr _ addr => addr == 0
  | .slice _ data _ => data == 0
  | .array _ es => allZero negZeroIsZero es
  | .map _ _ ref _ _ => ref == 0
  | .func _ _ _ ref => ref == 0
  | .struct _ fs => allZero negZeroIsZero fs
  | .named _ v => isZero negZeroIsZero v
  | .iface d => d.isNil
/-- Every element or field is zero. -/
def allZero (negZeroIsZero : Bool) : List GoValue → Bool
  | [] => true
  | v :: vs => isZero negZeroIsZero v && allZero negZeroIsZero vs
end

/-- The method `reflect.Value.IsZero`: panics on the zero `Value`, which is
what `ValueOf(nil)` returns. -/
def Value.IsZero (negZeroIsZero : Bool) (x : Value) : Outcome Bool :=
  if x.v.isNil then .panic (.error "reflect: call of reflect.Value.IsZero on zero Value")
  else .ret (isZero negZeroIsZero x.v)

/-! ## The operator `==` -/

/-- The bit pattern is a NaN: exponent all ones, fraction not zero. -/
def float64IsNaN (bits : Nat) : Bool :=
  (bits / 2^52) % 2^11 == 2047 && bits % 2^52 != 0

/-- The operator `==` on two `float64` values: a NaN equals nothing, the two
zeros are equal, and any other value equals only itself. -/
def float64Eq (a b : Nat) : Bool :=
  !float64IsNaN a && !float64IsNaN b && (a == b || (a % 2^63 == 0 && b % 2^63 == 0))

mutual
/-- The operator `==` on two operands of one comparable type; `error t` is the
run-time panic `comparing uncomparable type t`. Arrays and structs are compared
element by element in order, stopping at the first difference. Two interface
values are equal when both are nil, or when their dynamic types are identical
and their dynamic values are equal; comparing two interface values of one
dynamic type that is not comparable panics. -/
def equal : GoValue → GoValue → Except GoType Bool
  | .bool a, y => match y with
    | .bool b => .ok (a == b)
    | _ => .ok false
  | .int a, y => match y with
    | .int b => .ok (a == b)
    | _ => .ok false
  | .int64 a, y => match y with
    | .int64 b => .ok (a == b)
    | _ => .ok false
  | .uint8 a, y => match y with
    | .uint8 b => .ok (a == b)
    | _ => .ok false
  | .float64 a, y => match y with
    | .float64 b => .ok (float64Eq a b)
    | _ => .ok false
  | .string a, y => match y with
    | .string b => .ok (a == b)
    | _ => .ok false
  | .ptr _ a, y => match y with
    | .ptr _ b => .ok (a == b)
    | _ => .ok false
  | .array _ as, y => match y with
    | .array _ bs => equalAll as bs
    | _ => .ok false
  | .struct _ as, y => match y with
    | .struct _ bs => equalAll as bs
    | _ => .ok false
  | .named _ a, y => match y with
    | .named _ b => equal a b
    | _ => .ok false
  | .iface a, y => match y with
    | .iface b =>
      if !typeEq (TypeOf a) (TypeOf b) then .ok false
      else if a.isNil then .ok true
      else if !a.typ.Comparable then .error a.typ
      else equal a b
    | _ => .ok false
  | .nil, y => .ok y.isNil
  | .slice e _ _, _ => .error (.slice e)
  | .map k e _ _ _, _ => .error (.map k e)
  | .func p r v _, _ => .error (.func p r v)
/-- The operator `==` on the elements of two arrays or the fields of two
structs. -/
def equalAll : List GoValue → List GoValue → Except GoType Bool
  | [], [] => .ok true
  | a :: as, b :: bs =>
    match equal a b with
    | .ok true => equalAll as bs
    | r => r
  | _, _ => .ok false
end

/-- The comparison `value1 == value2` of two `interface{}` operands. -/
def ifaceEq (x y : GoValue) : Except GoType Bool :=
  if !typeEq (TypeOf x) (TypeOf y) then .ok false
  else if x.isNil then .ok true
  else if !x.typ.Comparable then .error x.typ
  else equal x y

/-! ## The test run -/

/-- One line written to the test log: by `Log` with its operands, or by
`Errorf` with its format and operands. -/
inductive Entry where
  | log (args : List Payload)
  | errorf (format : String) (args : List GoValue)

/-- The state of a `*testing.T` that the package can change: the log and the
failed flag. The method `Helper` only changes which source line later
messages are attributed to; it is not recorded. -/
structure T where
  output : List Entry
  failed : Bool

namespace T

/-- The method `T.Log`. -/
def Log (t : T) (args : List Payload) : T :=
  { t with output := t.output ++ [Entry.log args] }

/-- The method `T.Fail`: marks the test as failed and lets it continue. -/
def Fail (t : T) : T :=
  { t with failed := true }

/-- The method `T.Errorf`: `Logf` followed by `Fail`. -/
def Errorf (t : T) (format : String) (args : List GoValue) : T :=
  { output := t.output ++ [Entry.errorf format args], failed := true }

/-- The number of failures reported so far, one per call of `Errorf`. -/
def failures (t : T) : Nat :=
  t.output.countP fun e => match e with
    | .errorf _ _ => true
    | .log _ => false

end T

/-- A call that ran against a test: how it ended and the test state it left. -/
structure Run (α : Type) where
  out : Outcome α
  t : T

/-! ## Imported libraries -/

/-- What the package uses from outside the repository.

* `NegZeroIsZero` says whether `reflect.Value.IsZero` reports the negative
  zero of a float as zero (Go 1.22 and later) or not (Go 1.20 and earlier);
* `Compile` and `MatchString` are `regexp.Compile` (with the text of the error
  for a rejected pattern) and `(*Regexp).MatchString`;
* `ToLower` is `unicode.ToLower`;
* `Quote` and `QuoteBytes` are the verb `%q` of `fmt` on a string and on a byte
  slice, `FormatV` is the verb `%v`;
* `PrettySprintf` is `pretty.Sprintf("%# v", v)` of `github.com/kr/pretty`;
* `TypeString` is the name of a type as the runtime prints it;
* `Stack` is the text returned by `debug.Stack()`. -/
structure Lib where
  NegZeroIsZero : Bool
  Regexp : Type
  Compile : String → Except String Regexp
  MatchString : Regexp → String → Bool
  ToLower : Char → Char
  Quote : String → String
  QuoteBytes : List Nat → String
  FormatV : GoValue → String
  PrettySprintf : GoValue → String
  TypeString : GoType → String
  Stack : String

/-- The function `regexp.MustCompile`: panics with a string when the pattern
is rejected. -/
def MustCompile (L : Lib) (str : String) : Outcome L.Regexp :=
  match L.Compile str with
  | .ok re => .ret re
  | .error e => .panic (.value (.string ("regexp: Compile(" ++ L.Quote str ++ "): " ++ e)))

/-- The function `fmt.Sprint` on what `recover()` returned: `<nil>` for nil,
a string as it is, an error by its `Error` method, anything else by `%v`. -/
def Sprint (L : Lib) : Payload → String
  | .value .nil => "<nil>"
  | .value (.string s) => s
  | .value v => L.FormatV v
  | .error msg => msg

/-- The function `strings.ToLower` on a valid UTF-8 string: every rune is
mapped by `unicode.ToLower`. -/
def ToLower (L : Lib) (s : String) : String :=
  String.mk (s.data.map L.ToLower)

/-- The string `s` begins with `p`. -/
def startsWith : List Char → List Char → Bool
  | _, [] => true
  | [], _ :: _ => false
  | c :: s, d :: p => c == d && startsWith s p

/-- The search of `strings.Contains`: `substr` begins at some position of
`s`. -/
def containsChars : List Char → List Char → Bool
  | [], substr => substr.isEmpty
  | c :: s, substr => startsWith (c :: s) substr || containsChars s substr

/-- The function `strings.Contains`. -/
def Contains (s substr : String) : Bool :=
  containsChars s.data substr.data

/-- The function `bytes.Equal`: same length and same bytes; a nil slice equals
an empty one. -/
def bytesEqual (a b : List Nat) : Bool :=
  a == b

/-- An `error` value that is not nil: its dynamic value and what its `Error`
method returns. -/
structure GoError where
  dyn : GoValue
  Error : String

/-- The run-time panic of `==` on two interface values of one dynamic type
that is not comparable. -/
def uncomparable (L : Lib) (t : GoType) : Payload :=
  .error ("runtime error: comparing uncomparable type " ++ L.TypeString t)

/-! ## The package `testutil` -/

/-- The function `Repr`: a string or byte slice is quoted with `%q`, any other
value is formatted by `pretty.Sprintf("%# v", v)`. -/
def Repr (L : Lib) (v : GoValue) : String :=
  match v with
  | .string s => L.Quote s
  | .slice .uint8 _ elems => L.QuoteBytes (elems.map GoValue.toByte)
  | _ => L.PrettySprintf v

namespace Assert

/-- The method `Assert.Ok`. -/
def Ok (a : T) (assertionfmt : String) (ok : Bool) (v : List GoValue) : Run Bool :=
  if !ok then
    ⟨.ret ok, a.Errorf ("FAIL: (assertion) " ++ assertionfmt) v⟩
  else
    ⟨.ret ok, a⟩

/-- The method `Assert.Err`. -/
def Err (L : Lib) (a : T) (assertionfmt errsubstr : String) (err : Option GoError)
    (v : List GoValue) : Run Bool :=
  let assertionfmt := "FAIL: " ++ assertionfmt
  match err with
  | none =>
    ⟨.ret false,
      a.Errorf (assertionfmt ++ "\nexpected error with substring %q\n(no error)")
        (v ++ [.string errsubstr])⟩
  | some e =>
    if !Contains (ToLower L e.Error) (ToLower L errsubstr) then
      ⟨.ret false,
        a.Errorf
          (assertionfmt
            ++ "\nExpected error to contain substring %q (case-insensitive)\nGot %q")
          (v ++ [.string errsubstr, .string e.Error])⟩
    else
      ⟨.ret true, a⟩

/-- The method `Assert.NoErr`. -/
def NoErr (a : T) (assertionfmt : String) (err : Option GoError) (v : List GoValue) :
    Run Bool :=
  match err with
  | some e => ⟨.ret false, a.Errorf ("FAIL: " ++ assertionfmt ++ "; error: %v") (v ++ [e.dyn])⟩
  | none => ⟨.ret true, a⟩

/-- The tail of `Assert.Eq` once `eq` is known: report unless equal. -/
def eqReport (L : Lib) (a : T) (assertionfmt : String) (value1 value2 : GoValue)
    (v : List GoValue) (eq : Bool) : Run Bool :=
  if !eq then
    ⟨.ret false,
      a.Errorf ("FAIL: " ++ assertionfmt ++ "\nvalue1: %s\nvalue2: %s")
        (v ++ [.string (Repr L value1), .string (Repr L value2)])⟩
  else
    ⟨.ret true, a⟩

/-- The part of `Assert.Eq` after the type check: the address short-circuit,
then `==` for a comparable type, `bytes.Equal` for `[]byte`, and a failure for
any other type. -/
def eqSameType (L : Lib) (a : T) (assertionfmt : String) (value1 value2 : GoValue)
    (v : List GoValue) : Run Bool :=
  let v1 := ValueOf value1
  let v2 := ValueOf value2
  match Outcome.andThen v1.CanAddr (v1.sameAddr v2) with
  | .panic p => ⟨.panic p, a⟩
  | .ret true => ⟨.ret true, a⟩
  | .ret false =>
    if value1.typ.Comparable then
      match ifaceEq value1 value2 with
      | .error t => ⟨.panic (uncomparable L t), a⟩
      | .ok eq => eqReport L a assertionfmt value1 value2 v eq
    else
      match value1.asBytes with
      | some b1 =>
        match value2.asBytes with
        | some b2 => eqReport L a assertionfmt value1 value2 v (bytesEqual b1 b2)
        | none => ⟨.panic (.error "interface conversion: interface {} is not []uint8"), a⟩
      | none =>
        ⟨.ret false,
          a.Errorf ("FAIL: " ++ assertionfmt ++ "; assert.Eq can not compare values of type %T")
            (v ++ [value1])⟩

/-- The method `Assert.Eq`. -/
def Eq (L : Lib) (a : T) (assertionfmt : String) (value1 value2 : GoValue)
    (v : List GoValue) : Run Bool :=
  if value1.isNil && value2.isNil then
    ⟨.ret true, a⟩
  else
    let t1 := TypeOf value1
    let t2 := TypeOf value2
    if value1.isNil || value2.isNil then
      match Outcome.andThen value1.isNil ((ValueOf value2).IsZero L.NegZeroIsZero) with
      | .panic p => ⟨.panic p, a⟩
      | .ret true => ⟨.ret true, a⟩
      | .ret false =>
        match Outcome.andThen value2.isNil ((ValueOf value1).IsZero L.NegZeroIsZero) with
        | .panic p => ⟨.panic p, a⟩
        | .ret true => ⟨.ret true, a⟩
        | .ret false =>
          ⟨.ret false,
            a.Errorf ("FAIL: " ++ assertionfmt ++ "\nvalue1: %s\nvalue2: %s")
              (v ++ [.string (Repr L value1), .string (Repr L value2)])⟩
    else if !typeEq t1 t2 then
      ⟨.ret false,
        a.Errorf ("FAIL: " ++ assertionfmt ++ "; types differ:\nvalue1: %T\nvalue2: %T")
          (v ++ [value1, value2])⟩
    else
      eqSameType L a assertionfmt value1 value2 v

/-- The deferred closure of `Assert.Panic`, given what `recover()` finds
(`none` when the function is not panicking): it returns the new value of the
local variable `ok` and the test state. -/
def panicDeferred (L : Lib) (expected : L.Regexp) (expectedPanicRegExp : String)
    (panicking : Option Payload) (ok : Bool) (a : T) : Bool × T :=
  match panicking with
  | some p =>
    if !p.isNil then
      let panicMsg := Sprint L p
      let ok := L.MatchString expected panicMsg
      if !ok then
        (ok, (a.Log [.value (.string L.Stack)]).Errorf "expected panic to match %q but got %q"
          [.string expectedPanicRegExp, .string panicMsg])
      else
        (ok, a)
    else
      (ok, (a.Log [.value (.string L.Stack)]).Errorf "expected panic (but there was no panic)" [])
  | none =>
    (ok, (a.Log [.value (.string L.Stack)]).Errorf "expected panic (but there was no panic)" [])

/-- The method `Assert.Panic`. The function `f` runs against the test state
and returns or panics. The result of `Panic` is not a named result: the
statement `return ok` copies the local variable `ok` into the result before the
deferred closure runs, and when `f` panics that statement is never reached, so
that the result keeps the zero value it had on entry. -/
def Panic (L : Lib) (a : T) (expectedPanicRegExp : String) (f : T → Run Unit) : Run Bool :=
  let result := false
  let ok := false
  match MustCompile L ("(?i)" ++ expectedPanicRegExp) with
  | .panic p => ⟨.panic p, a⟩
  | .ret expected =>
    let r := f a
    match r.out with
    | .ret _ =>
      let result := ok
      let d := panicDeferred L expected expectedPanicRegExp none ok r.t
      ⟨.ret result, d.2⟩
    | .panic p =>
      let d := panicDeferred L expected expectedPanicRegExp (some p) ok r.t
      ⟨.ret result, d.2⟩

end Assert

/-- The function `RecoverAsFail`, run as a deferred call: `panicking` is the
panic under way, if any. The call of `recover()` stops the panic; a payload
that is not nil is logged with the stack and the test is marked as failed. -/
def RecoverAsFail (L : Lib) (panicking : Option Payload) (t : T) : Run Unit :=
  match panicking with
  | some p =>
    if !p.isNil then
      ⟨.ret (), ((t.Log [p]).Log [.value (.string L.Stack)]).Fail⟩
    else
      ⟨.ret (), t⟩
  | none => ⟨.ret (), t⟩

/-! ## A concrete library for evaluating examples -/

namespace Fragment

/-- One character position of a pattern: a literal character, or `.`. -/
inductive Atom where
  | lit (c : Char)
  | any

/-- An atom, possibly followed by the operator `?`. -/
structure Item where
  atom : Atom
  optional : Bool

/-- A compiled pattern of the fragment: the flag `i` and the items. -/
structure Regexp where
  foldCase : Bool
  items : List Item

/-- The characters with a special meaning in the syntax of `regexp/syntax`,
the dot apart. -/
def isOperator (c : Char) : Bool :=
  c == Char.ofNat 92 || c == '[' || c == ']' || c == '(' || c == ')' || c == Char.ofNat 123
    || c == Char.ofNat 125 || c == '*' || c == '+' || c == '|' || c == '^' || c == '$'
    || c == '?'

/-- The atom written `c`. -/
def atomOf (c : Char) : Atom :=
  if c == '.' then .any else .lit c

/-- Parses a sequence of literal characters and dots, each possibly followed by
one `?`. Any other use of an operator is refused: it is either rejected by
`regexp/syntax` too (a `?` with nothing to repeat, an unclosed group) or
outside the fragment. -/
def parseItems : List Char → Option (List Item)
  | [] => some []
  | c :: '?' :: rest =>
    if isOperator c then none
    else (parseItems rest).map fun items => { atom := atomOf c, optional := true } :: items
  | c :: rest =>
    if isOperator c then none
    else (parseItems rest).map fun items => { atom := atomOf c, optional := false } :: items

/-- Compiles a pattern of the fragment, with or without the leading flag
group `(?i)`. -/
def Compile (str : String) : Except String Regexp :=
  match str.data with
  | '(' :: '?' :: 'i' :: ')' :: rest =>
    match parseItems rest with
    | some items => .ok { foldCase := true, items := items }
    | none => .error "error parsing regexp"
  | cs =>
    match parseItems cs with
    | some items => .ok { foldCase := false, items := items }
    | none => .error "error parsing regexp"

/-- One character against one atom; the dot matches anything but a newline,
and under the flag `i` letters match without regard to case. -/
def atomMatch (foldCase : Bool) : Atom → Char → Bool
  | .any, c => c != Char.ofNat 10
  | .lit d, c => if foldCase then c.toLower == d.toLower else c == d

/-- The items match at the start of the text. -/
def matchHere (foldCase : Bool) : List Item → List Char → Bool
  | [], _ => true
  | item :: items, text =>
    (match text with
      | [] => false
      | c :: rest => atomMatch foldCase item.atom c && matchHere foldCase items rest)
    || (item.optional && matchHere foldCase items text)

/-- The items match somewhere in the text. -/
def matchAnywhere (foldCase : Bool) (items : List Item) : List Char → Bool
  | [] => matchHere foldCase items []
  | c :: rest => matchHere foldCase items (c :: rest) || matchAnywhere foldCase items rest

/-- The method `MatchString`: the pattern matches some substring of `s`. -/
def MatchString (re : Regexp) (s : String) : Bool :=
  matchAnywhere re.foldCase re.items s.data

end Fragment

/-- A concrete library: `IsZero` as in Go 1.22 and later, the regular
expressions of `Fragment`, lower-casing of the ASCII letters, and empty text
for the formatting functions, on which no result depends. -/
def fragmentLib : Lib where
  NegZeroIsZero := true
  Regexp := Fragment.Regexp
  Compile := Fragment.Compile
  MatchString := Fragment.MatchString
  ToLower := Char.toLower
  Quote := fun _ => ""
  QuoteBytes := fun _ => ""
  FormatV := fun _ => ""
  PrettySprintf := fun _ => ""
  TypeString := fun _ => ""
  Stack := ""

/-- The test of the comment on `RecoverAsFail`: the function defers
`RecoverAsFail(t)` and then runs a body that may panic. The deferred call runs
when the body has returned or panicked; it calls `recover()`, so that the test
function returns to its caller when the deferred call returns. -/
def TestThing (L : Lib) (somethingThatMayPanic : T → Run Unit) (t : T) : Run Unit :=
  let r := somethingThatMayPanic t
  match r.out with
  | .ret _ => RecoverAsFail L none r.t
  | .panic p => RecoverAsFail L (some p) r.t

/-! ## The formatter of `kr/pretty` on maps -/

/-- The string held by a map key of type `string`. -/
def GoValue.asString : GoValue → String
  | .string s => s
  | _ => ""

/-- The entries of a map with string keys, in the order in which the runtime
happens to iterate over them. -/
def GoValue.entries : GoValue → List (String × GoValue)
  | .map _ _ _ keys vals => (keys.map GoValue.asString).zip vals
  | _ => []

/-- The order `<=` of Go on two strings, lexicographic by code point (for
valid UTF-8 the same as by byte). -/
def leChars : List Char → List Char → Bool
  | [], _ => true
  | _ :: _, [] => false
  | c :: cs, d :: ds => decide (c.toNat < d.toNat) || (c.toNat == d.toNat && leChars cs ds)

/-- The key of the first entry is at most the key of the second. -/
def keyLe (x y : String × GoValue) : Prop :=
  leChars x.1.data y.1.data = true

instance keyLe.decidable : DecidableRel keyLe :=
  fun x y => inferInstanceAs (Decidable (leChars x.1.data y.1.data = true))

/-- The texts joined by a comma and a space. -/
def joinEntries : List String → String
  | [] => ""
  | [s] => s
  | s :: t :: rest => s ++ ", " ++ joinEntries (t :: rest)

/-- One entry of a map as `key:value`. -/
def prettyEntry (L : Lib) (x : String × GoValue) : String :=
  L.Quote x.1 ++ ":" ++ L.FormatV x.2

/-- Modelled from the spec: what `pretty.Sprintf("%# v", m)` of the package
`github.com/kr/pretty`, which is not under `src/`, returns for a map `m` with
string keys. The specification asks for a representation showing the type and
the elements, with the keys of a mapping in a deterministic, lexicographic
order, and gives `map[string]int{"A":1, "B":2}` as the example: the name of the
type, then between braces the entries `key:value` in ascending order of the
keys, separated by a comma and a space. -/
def prettyMap (L : Lib) (m : GoValue) : String :=
  L.TypeString m.typ ++ "\x7b"
    ++ joinEntries ((List.insertionSort keyLe m.entries).map (prettyEntry L)) ++ "\x7d"

/-- Modelled from the spec: `pretty.Sprintf("%# v", v)`, which formats a map
with string keys by `prettyMap` and any other value as the library given
does. -/
def prettySprintf (L : Lib) : GoValue → String
  | .map .string e ref keys vals => prettyMap L (.map .string e ref keys vals)
  | v => L.PrettySprintf v

/-- The library `L` with the formatter of `kr/pretty` modelled from the
specification. -/
def withPretty (L : Lib) : Lib :=
  { L with PrettySprintf := prettySprintf L }

/-- The text of `strconv.Quote` on a string of printable ASCII characters with
no quote and no backslash in it: the string between two quotes. -/
def quotePlain (s : String) : String :=
  String.singleton (Char.ofNat 34) ++ s ++ String.singleton (Char.ofNat 34)

/-- The verb `%v` on an integer, a string and a boolean. -/
def formatPlain : GoValue → String
  | .int n => toString n
  | .int64 n => toString n
  | .uint8 b => toString b
  | .string s => s
  | .bool b => if b then "true" else "false"
  | _ => ""

/-- The name of a type made of the predeclared types, pointers, slices, arrays
and maps, as Go writes it. -/
def typeName : GoType → String
  | .bool => "bool"
  | .int => "int"
  | .int64 => "int64"
  | .uint8 => "uint8"
  | .float64 => "float64"
  | .string => "string"
  | .ptr e => "*" ++ typeName e
  | .slice e => "[]" ++ typeName e
  | .array n e => "[" ++ toString n ++ "]" ++ typeName e
  | .map k e => "map[" ++ typeName k ++ "]" ++ typeName e
  | .func _ _ _ => "func"
  | .struct _ _ => "struct"
  | .named n _ => n
  | .iface => "interface \x7b\x7d"

/-- A concrete library for the example of `Repr`: `fragmentLib` with the
formatting of plain strings and integers, the names of types, and the
formatter of `kr/pretty` modelled from the specification. -/
def exampleLib : Lib :=
  withPretty { fragmentLib with Quote := quotePlain, FormatV := formatPlain,
                                TypeString := typeName }

/-! ## The words of the specification -/

/-- Follows the specification: a call either passes silently or reports a
failure to the test run and returns a boolean indicating success. The call
that started on the test state `a` returned true and left the test as it was,
or returned false and reported exactly one failure, marking the test
failed. -/
def Assert.agrees (a : T) (r : Run Bool) : Prop :=
  (r.out = .ret true ∧ r.t = a)
    ∨ (r.out = .ret false ∧ r.t.failures = a.failures + 1 ∧ r.t.failed = true)


/-- Follows the specification: the substring appears in `s` under
case-insensitive comparison, that is, some run of consecutive characters of `s`
and the substring are the same text once both are put in lower case. -/
def occursIgnoringCase (L : Lib) (substr s : String) : Prop :=
  ∃ pre mid post : List Char,
    s.data = pre ++ mid ++ post ∧ mid.map L.ToLower = substr.data.map L.ToLower

mutual
/-- The values on which `v == v` runs to the end and finds no difference: the
value holds no NaN, it is no slice, map or func, and each interface-typed
element or field holds `nil` or a value of comparable type that is regular
again. -/
def GoValue.regular : GoValue → Bool
  | .float64 bits => !float64IsNaN bits
  | .slice _ _ _ => false
  | .map _ _ _ _ _ => false
  | .func _ _ _ _ => false
  | .array _ es => GoValue.regularAll es
  | .struct _ fs => GoValue.regularAll fs
  | .named _ v => GoValue.regular v
  | .iface d => d.isNil || (d.typ.Comparable && GoValue.regular d)
  | _ => true
/-- Every element or field is regular. -/
def GoValue.regularAll : List GoValue → Bool
  | [] => true
  | v :: vs => GoValue.regular v && GoValue.regularAll vs
end

mutual
/-- The values on which the answer of `IsZero` is the same in every release of
Go and is not in dispute: the value holds no negative zero, and no slice or map
that is empty without being nil. -/
def GoValue.settled : GoValue → Bool
  | .float64 bits => bits != 2^63
  | .slice _ data elems => data == 0 || !elems.isEmpty
  | .map _ _ ref keys _ => ref == 0 || !keys.isEmpty
  | .array _ es => GoValue.settledAll es
  | .struct _ fs => GoValue.settledAll fs
  | .named _ v => GoValue.settled v
  | _ => true
/-- Every element or field is settled. -/
def GoValue.settledAll : List GoValue → Bool
  | [] => true
  | v :: vs => GoValue.settled v && GoValue.settledAll vs
end

/-! ## Examples of the test file -/

/-- The function that panics with the string `Oh no, a lolcat!`, as
`ExamplePanic` of the test file does. -/
def ExamplePanic (t : T) : Run Unit :=
  ⟨.panic (.value (.string "Oh no, a lolcat!")), t⟩

/-- The error made by `errors.New("An error abc123!")`, as `ExampleErr` of the
test file returns it, at the address `addr`. -/
def ExampleErr (addr : Nat) : GoError :=
  { dyn := .ptr (.named "errors.errorString" (.struct [⟨"errors.s", "", false⟩] [.string])) addr,
    Error := "An error abc123!" }

/-- A function that calls `panic(nil)`. -/
def panicNil (t : T) : Run Unit :=
  ⟨.panic (.value .nil), t⟩

/-- The bit pattern of `math.NaN()`. -/
def nanBits : Nat := 0x7FF8000000000001

/-- The struct value `struct{ f interface{} }{ []int{} }`: a struct type is
comparable when its field types are, and the field holds an empty slice at the
address `1`. -/
def boxedSlice : GoValue :=
  .struct [⟨"f", "", false⟩] [.iface (.slice .int 1 [])]

/-- A map of type `map[string]int` at the address `ref`, with no entries. -/
def emptyMap (ref : Nat) : GoValue :=
  .map .string .int ref [] []

/-- The map `map[string]int{"A": 1, "B": 2}` of the test file, at the address
`ref`, when the runtime iterates over `A` first. -/
def exampleMapAB (ref : Nat) : GoValue :=
  .map .string .int ref [.string "A", .string "B"] [.int 1, .int 2]

/-- The same map when the runtime iterates over `B` first. -/
def exampleMapBA (ref : Nat) : GoValue :=
  .map .string .int ref [.string "B", .string "A"] [.int 2, .int 1]

/-- The bit pattern of the negative zero, `math.Copysign(0, -1)`. -/
def negZeroBits : Nat := 2^63

/-- The value `MyInt(1)` of a defined type `type MyInt int`. -/
def myInt1 : GoValue :=
  .named "main.MyInt" (.int 1)

/-- The value `struct{ a int }{ 1 }`. -/
def structA1 : GoValue :=
  .struct [⟨"a", "", false⟩] [.int 1]

/-- The value `struct{ b int }{ 1 }`. -/
def structB1 : GoValue :=
  .struct [⟨"b", "", false⟩] [.int 1]

/-- A fresh test run. -/
def T.fresh : T :=
  { output := [], failed := false }

end Testutil
namespace Testutil

/-! ## Types and the test log -/

namespace GoType

mutual
theorem beq_iff : ∀ (a b : GoType), beq a b = true ↔ a = b
  | .bool, b => by cases b <;> simp [beq]
  | .int, b => by cases b <;> simp [beq]
  | .int64, b => by cases b <;> simp [beq]
  | .uint8, b => by cases b <;> simp [beq]
  | .float64, b => by cases b <;> simp [beq]
  | .string, b => by cases b <;> simp [beq]
  | .func p r v, b => by cases b <;> simp [beq, beqList_iff p, beqList_iff r, and_assoc]
  | .iface, b => by cases b <;> simp [beq]
  | .ptr a, b => by cases b <;> simp [beq, beq_iff a]
  | .slice a, b => by cases b <;> simp [beq, beq_iff a]
  | .array n a, b => by cases b <;> simp [beq, beq_iff a]
  | .map k a, b => by cases b <;> simp [beq, beq_iff k, beq_iff a]
  | .struct ds fs, b => by cases b <;> simp [beq, beqList_iff fs]
  | .named n a, b => by cases b <;> simp [beq, beq_iff a]
theorem beqList_iff : ∀ (as bs : List GoType), beqList as bs = true ↔ as = bs
  | [], bs => by cases bs <;> simp [beqList]
  | a :: as, bs => by cases bs <;> simp [beqList, beq_iff a, beqList_iff as]
end

theorem beq_self (a : GoType) : beq a a = true := (beq_iff a a).2 rfl

theorem beq_eq_false_iff (a b : GoType) : beq a b = false ↔ a ≠ b := by
  constructor
  · intro h e
    rw [(beq_iff a b).2 e] at h
    cases h
  · intro h
    cases hb : beq a b
    · rfl
    · exact absurd ((beq_iff a b).1 hb) h

end GoType

theorem typeEq_some (a b : GoType) : typeEq (some a) (some b) = GoType.beq a b := rfl

theorem TypeOf_of_not_nil {v : GoValue} (h : v.isNil = false) : TypeOf v = some v.typ := by
  simp [TypeOf, h]

namespace T

theorem failures_Errorf (t : T) (format : String) (args : List GoValue) :
    (t.Errorf format args).failures = t.failures + 1 := by
  simp [failures, Errorf, List.countP_append]

theorem failures_Log (t : T) (args : List Payload) :
    (t.Log args).failures = t.failures := by
  simp [failures, Log, List.countP_append]

theorem failed_Errorf (t : T) (format : String) (args : List GoValue) :
    (t.Errorf format args).failed = true := rfl

end T

/-! ## `Assert.Eq` on byte slices -/

theorem map_toByte_uint8 (b : List Nat) :
    (b.map GoValue.uint8).map GoValue.toByte = b := by
  induction b with
  | nil => rfl
  | cons x xs ih => simpa [GoValue.toByte] using ih

/-- The run of `Assert.Eq` on two byte slices is decided by `bytes.Equal`. -/
theorem Assert.Eq_bytes (L : Lib) (a : T) (assertionfmt : String) (d1 d2 : Nat)
    (b1 b2 : List Nat) (v : List GoValue) :
    Assert.Eq L a assertionfmt (.slice .uint8 d1 (b1.map .uint8))
        (.slice .uint8 d2 (b2.map .uint8)) v
      = Assert.eqReport L a assertionfmt (.slice .uint8 d1 (b1.map .uint8))
          (.slice .uint8 d2 (b2.map .uint8)) v (bytesEqual b1 b2) := by
  simp [Assert.Eq, Assert.eqSameType, GoValue.isNil, TypeOf, typeEq, GoValue.typ,
    GoType.beq, ValueOf, Value.CanAddr, Outcome.andThen, GoType.Comparable,
    GoValue.asBytes, -List.map_map, map_toByte_uint8]

/-- Claim C1. For all byte slices `b1` and `b2` (the nil slice has address `0`
and no bytes, the empty slice has another address and no bytes), `Assert.Eq`
returns, and it returns true exactly when the two slices have the same length
and the same byte at every index. -/
theorem Assert.Eq_bytes_iff (L : Lib) (a : T) (assertionfmt : String) (d1 d2 : Nat)
    (b1 b2 : List Nat) (v : List GoValue) :
    ∃ r : Bool,
      (Assert.Eq L a assertionfmt (.slice .uint8 d1 (b1.map .uint8))
        (.slice .uint8 d2 (b2.map .uint8)) v).out = .ret r
      ∧ (r = true ↔
          b1.length = b2.length ∧ ∀ i : Nat, ∀ h1 : i < b1.length, ∀ h2 : i < b2.length,
            b1.get ⟨i, h1⟩ = b2.get ⟨i, h2⟩) := by
  refine ⟨bytesEqual b1 b2, ?_, ?_⟩
  · rw [Assert.Eq_bytes]
    cases h : bytesEqual b1 b2 <;> simp [Assert.eqReport]
  · simp only [bytesEqual, beq_iff_eq]
    constructor
    · rintro rfl
      exact ⟨rfl, fun _ _ _ => rfl⟩
    · rintro ⟨hlen, hget⟩
      exact List.ext_get hlen hget

end Testutil
namespace Testutil

/-! ## `Assert.Panic` -/

/-- Claim C2, what the code does. `Assert.Panic` never returns true: when `f`
returns, the result is the `ok` that `return ok` read before the deferred
closure ran, and when `f` panics the result is still the zero value. At the
input of the test file, the pattern `lolcats?` and a function that panics with
`Oh no, a lolcat!`, the pattern matches the payload and no failure is
reported, and `Assert.Panic` returns false. -/
theorem Assert.Panic_never_true :
    (∀ (L : Lib) (a : T) (expectedPanicRegExp : String) (f : T → Run Unit),
        (Assert.Panic L a expectedPanicRegExp f).out ≠ .ret true)
    ∧ (Assert.Panic fragmentLib T.fresh "lolcats?" ExamplePanic).out = .ret false
    ∧ (Assert.Panic fragmentLib T.fresh "lolcats?" ExamplePanic).t = T.fresh := by
  refine ⟨?_, rfl, rfl⟩
  intro L a pat f
  unfold Assert.Panic
  cases hc : MustCompile L ("(?i)" ++ pat) with
  | panic p => simp
  | ret re =>
    cases hf : (f a).out <;> simp [hf]

/-! ## `Assert.Eq` on values of different types -/

/-- Claim C6. For every pair of non-nil values whose dynamic types differ,
`Assert.Eq` returns false and reports the failure `types differ` with the two
values as operands. The identity of types is that of `reflect.Type`: a defined
type differs from its underlying type and from every defined type of another
name, and two struct types differ when a field has another name or tag. -/
theorem Assert.Eq_types_differ (L : Lib) (a : T) (assertionfmt : String)
    (value1 value2 : GoValue) (v : List GoValue)
    (h1 : value1.isNil = false) (h2 : value2.isNil = false)
    (ht : value1.typ ≠ value2.typ) :
    Assert.Eq L a assertionfmt value1 value2 v
      = ⟨.ret false,
          a.Errorf ("FAIL: " ++ assertionfmt ++ "; types differ:\nvalue1: %T\nvalue2: %T")
            (v ++ [value1, value2])⟩ := by
  have hb : GoType.beq value1.typ value2.typ = false :=
    (GoType.beq_eq_false_iff _ _).2 ht
  simp [Assert.Eq, h1, h2, TypeOf, typeEq, hb]

/-- The examples of claim C6: the `int` 1 against the `int64` 1, the string
`a` against the byte slice holding the byte of `a`, the value `MyInt(1)` of a
defined type against the `int` 1, and two structs whose only field has another
name. -/
theorem Assert.Eq_types_differ_witness :
    (Assert.Eq fragmentLib T.fresh "x" (.int 1) (.int64 1) []).out = .ret false
    ∧ (Assert.Eq fragmentLib T.fresh "x" (.int 1) (.int64 1) []).t.failures = 1
    ∧ (Assert.Eq fragmentLib T.fresh "x" (.string "a") (.slice .uint8 1 [.uint8 97]) []).out
        = .ret false
    ∧ (Assert.Eq fragmentLib T.fresh "x" myInt1 (.int 1) []).out = .ret false
    ∧ (Assert.Eq fragmentLib T.fresh "x" structA1 structB1 []).out = .ret false := by
  refine ⟨?_, ?_, ?_, ?_, ?_⟩
  · rw [Assert.Eq_types_differ fragmentLib T.fresh "x" (.int 1) (.int64 1) [] rfl rfl
      (by simp [GoValue.typ])]
  · rw [Assert.Eq_types_differ fragmentLib T.fresh "x" (.int 1) (.int64 1) [] rfl rfl
      (by simp [GoValue.typ])]
    rfl
  · rw [Assert.Eq_types_differ fragmentLib T.fresh "x" (.string "a")
      (.slice .uint8 1 [.uint8 97]) [] rfl rfl (by simp [GoValue.typ])]
  · rw [Assert.Eq_types_differ fragmentLib T.fresh "x" myInt1 (.int 1) [] rfl rfl
      (by simp [myInt1, GoValue.typ])]
  · rw [Assert.Eq_types_differ fragmentLib T.fresh "x" structA1 structB1 [] rfl rfl
      (by simp [structA1, structB1, GoValue.typ])]

/-! ## `Assert.NoErr` and `Assert.Ok` -/

/-- Claim C9. `Assert.NoErr` returns true exactly when the error is nil: on the
nil error it returns true and leaves the test untouched, on every other error
it returns false and reports one failure. -/
theorem Assert.NoErr_iff (a : T) (assertionfmt : String) (err : Option GoError)
    (v : List GoValue) :
    ((Assert.NoErr a assertionfmt err v).out = .ret true ↔ err = none)
    ∧ Assert.NoErr a assertionfmt none v = ⟨.ret true, a⟩
    ∧ ∀ e : GoError,
        (Assert.NoErr a assertionfmt (some e) v).out = .ret false
        ∧ (Assert.NoErr a assertionfmt (some e) v).t.failures = a.failures + 1 := by
  refine ⟨?_, rfl, fun e => ⟨rfl, ?_⟩⟩
  · cases err <;> simp [Assert.NoErr]
  · simp [Assert.NoErr, T.failures_Errorf]

/-- Claim C10. `Assert.Ok` returns the condition it was given, for every
description and operand list; on a true condition the test is untouched, on a
false one exactly one failure is reported and the test is marked failed. -/
theorem Assert.Ok_spec (a : T) (assertionfmt : String) (ok : Bool) (v : List GoValue) :
    (Assert.Ok a assertionfmt ok v).out = .ret ok
    ∧ (Assert.Ok a assertionfmt true v).t = a
    ∧ (Assert.Ok a assertionfmt false v).t
        = a.Errorf ("FAIL: (assertion) " ++ assertionfmt) v
    ∧ (Assert.Ok a assertionfmt false v).t.failures = a.failures + 1
    ∧ (Assert.Ok a assertionfmt false v).t.failed = true := by
  refine ⟨?_, rfl, rfl, ?_, rfl⟩
  · cases ok <;> rfl
  · simp [Assert.Ok, T.failures_Errorf]

end Testutil
namespace Testutil

/-! ## `Assert.Err` -/

theorem startsWith_iff (s p : List Char) :
    startsWith s p = true ↔ ∃ post, s = p ++ post := by
  induction p generalizing s with
  | nil => cases s <;> simp [startsWith]
  | cons d p ih =>
    cases s with
    | nil => simp [startsWith]
    | cons c s =>
      simp only [startsWith, Bool.and_eq_true, beq_iff_eq, ih, List.cons_append,
        List.cons.injEq]
      constructor
      · rintro ⟨rfl, post, rfl⟩
        exact ⟨post, rfl, rfl⟩
      · rintro ⟨post, rfl, rfl⟩
        exact ⟨rfl, post, rfl⟩

theorem containsChars_iff (s substr : List Char) :
    containsChars s substr = true ↔ ∃ pre post, s = pre ++ substr ++ post := by
  induction s with
  | nil =>
    simp only [containsChars, List.isEmpty_iff]
    constructor
    · rintro rfl
      exact ⟨[], [], rfl⟩
    · rintro ⟨pre, post, h⟩
      have h2 := congrArg List.length h
      simp only [List.length_nil, List.length_append] at h2
      exact List.length_eq_zero.1 (by omega)
  | cons c s ih =>
    simp only [containsChars, Bool.or_eq_true, startsWith_iff, ih]
    constructor
    · rintro (⟨post, h⟩ | ⟨pre, post, h⟩)
      · exact ⟨[], post, by simpa using h⟩
      · exact ⟨c :: pre, post, by simp [h]⟩
    · rintro ⟨pre, post, h⟩
      cases pre with
      | nil => exact Or.inl ⟨post, by simpa using h⟩
      | cons x pre =>
        simp only [List.cons_append, List.cons.injEq] at h
        exact Or.inr ⟨pre, post, h.2⟩

/-- The search of `Assert.Err`, lower-casing then `strings.Contains`, finds
exactly the occurrences that the specification describes. -/
theorem Contains_ToLower_iff (L : Lib) (s substr : String) :
    Contains (ToLower L s) (ToLower L substr) = true ↔ occursIgnoringCase L substr s := by
  simp only [Contains, ToLower, containsChars_iff, occursIgnoringCase]
  constructor
  · rintro ⟨pre, post, h⟩
    rw [List.append_assoc] at h
    obtain ⟨l1, l23, h1, -, h23⟩ := List.map_eq_append_iff.1 h
    obtain ⟨l2, l3, h2, hmid, -⟩ := List.map_eq_append_iff.1 h23
    exact ⟨l1, l2, l3, by rw [h1, h2, List.append_assoc], hmid⟩
  · rintro ⟨pre, mid, post, h, hmid⟩
    exact ⟨pre.map L.ToLower, post.map L.ToLower, by rw [h, ← hmid]; simp⟩

/-- Claim C7. `Assert.Err` returns true exactly when the error is not nil and
the substring occurs in its message under case-insensitive comparison; it
returns false for the nil error; and it returns true for the message
`An error abc123!` with the substring `abc123`. -/
theorem Assert.Err_iff (L : Lib) (a : T) (assertionfmt errsubstr : String)
    (err : Option GoError) (v : List GoValue) :
    (∃ r : Bool, (Assert.Err L a assertionfmt errsubstr err v).out = .ret r)
    ∧ ((Assert.Err L a assertionfmt errsubstr err v).out = .ret true
        ↔ ∃ e : GoError, err = some e ∧ occursIgnoringCase L errsubstr e.Error)
    ∧ (Assert.Err L a assertionfmt errsubstr none v).out = .ret false
    ∧ ∀ addr : Nat,
        (Assert.Err L a assertionfmt "abc123" (some (ExampleErr addr)) v).out = .ret true := by
  have key : ∀ (sub : String) (e : GoError),
      (Assert.Err L a assertionfmt sub (some e) v).out
        = .ret (Contains (ToLower L e.Error) (ToLower L sub)) := by
    intro sub e
    cases h : Contains (ToLower L e.Error) (ToLower L sub) <;> simp [Assert.Err, h]
  refine ⟨?_, ?_, rfl, ?_⟩
  · cases err with
    | none => exact ⟨false, rfl⟩
    | some e => exact ⟨_, key errsubstr e⟩
  · cases err with
    | none => simp [Assert.Err]
    | some e =>
      rw [key]
      simp [Contains_ToLower_iff]
  · intro addr
    rw [key]
    have h : occursIgnoringCase L "abc123" (ExampleErr addr).Error :=
      ⟨"An error ".data, "abc123".data, "!".data, rfl, rfl⟩
    rw [(Contains_ToLower_iff L _ _).2 h]

end Testutil
namespace Testutil

/-! ## What `Assert.Panic` reports -/

/-- Claim C8, the statement as written fails: the pattern `nil` is valid, the
function panics with the payload `nil`, whose text `<nil>` the pattern matches,
and `Assert.Panic` still reports a failure, the one for `no panic`. -/
theorem Assert.Panic_nil_payload_reported :
    (∃ re, fragmentLib.Compile ("(?i)" ++ "nil") = .ok re
      ∧ fragmentLib.MatchString re (Sprint fragmentLib (.value .nil)) = true)
    ∧ (panicNil T.fresh).out = .panic (.value .nil)
    ∧ (Assert.Panic fragmentLib T.fresh "nil" panicNil).out = .ret false
    ∧ (Assert.Panic fragmentLib T.fresh "nil" panicNil).t.failures
        = (panicNil T.fresh).t.failures + 1 :=
  ⟨⟨_, rfl, rfl⟩, rfl, rfl, rfl⟩

/-- Claim C8, amended. For a pattern that compiles, `Assert.Panic` returns
whatever `f` does, so that a panic of `f` never reaches the caller; it leaves
the test as `f` left it when `f` panicked with a payload that is not nil and
whose text matches the pattern, and in every other case (no panic, a nil
payload, no match) it reports exactly one failure and marks the test failed. -/
theorem Assert.Panic_reports (L : Lib) (a : T) (expectedPanicRegExp : String)
    (f : T → Run Unit) (re : L.Regexp)
    (hre : L.Compile ("(?i)" ++ expectedPanicRegExp) = .ok re) :
    (∃ b : Bool, (Assert.Panic L a expectedPanicRegExp f).out = .ret b)
    ∧ ((∃ p, (f a).out = .panic p ∧ p.isNil = false
          ∧ L.MatchString re (Sprint L p) = true)
        → (Assert.Panic L a expectedPanicRegExp f).t = (f a).t)
    ∧ ((¬ ∃ p, (f a).out = .panic p ∧ p.isNil = false
          ∧ L.MatchString re (Sprint L p) = true)
        → (Assert.Panic L a expectedPanicRegExp f).t.failures = (f a).t.failures + 1
          ∧ (Assert.Panic L a expectedPanicRegExp f).t.failed = true) := by
  have hm : MustCompile L ("(?i)" ++ expectedPanicRegExp) = .ret re := by
    simp [MustCompile, hre]
  unfold Assert.Panic
  simp only [hm]
  cases hf : (f a).out with
  | ret u =>
    simp [Assert.panicDeferred, T.failures_Errorf, T.failures_Log, T.failed_Errorf]
  | panic p =>
    cases hn : p.isNil
    · cases hmatch : L.MatchString re (Sprint L p)
      · simp [Assert.panicDeferred, hn, hmatch, T.failures_Errorf, T.failures_Log,
          T.failed_Errorf]
      · simp [Assert.panicDeferred, hn, hmatch]
    · simp [Assert.panicDeferred, hn, T.failures_Errorf, T.failures_Log, T.failed_Errorf]

/-- Claim C8, amended, at the input of the test file: the pattern `lolcats?`
compiles, the function panics with `Oh no, a lolcat!`, and nothing is
reported. -/
theorem Assert.Panic_reports_witness :
    (∃ b : Bool, (Assert.Panic fragmentLib T.fresh "lolcats?" ExamplePanic).out = .ret b)
    ∧ (Assert.Panic fragmentLib T.fresh "lolcats?" ExamplePanic).t = (ExamplePanic T.fresh).t :=
  have h := Assert.Panic_reports fragmentLib T.fresh "lolcats?" ExamplePanic
    { foldCase := true,
      items := [⟨.lit 'l', false⟩, ⟨.lit 'o', false⟩, ⟨.lit 'l', false⟩, ⟨.lit 'c', false⟩,
        ⟨.lit 'a', false⟩, ⟨.lit 't', false⟩, ⟨.lit 's', true⟩] } rfl
  ⟨h.1, h.2.1 ⟨_, rfl, rfl, rfl⟩⟩

end Testutil
namespace Testutil

/-! ## The zero value and `IsZero` -/

theorem string_length_eq_zero_iff (s : String) : s.length = 0 ↔ s = "" := by
  cases s with
  | mk data =>
    simp only [String.length, List.length_eq_zero]
    constructor
    · rintro rfl
      rfl
    · intro h
      exact congrArg String.data h

theorem float_isZero_iff (nz : Bool) (bits : Nat) (hw : bits < 2^64) (hs : bits ≠ 2^63) :
    (if nz then bits % 2^63 == 0 else bits == 0) = true ↔ bits = 0 := by
  cases nz
  · simp
  · simp only [if_true, beq_iff_eq]
    constructor
    · intro h
      omega
    · rintro rfl
      rfl

mutual
/-- In every release of Go, `IsZero` holds for the zero value of a type. -/
theorem isZero_zeroValue (nz : Bool) : ∀ t : GoType, isZero nz (zeroValue t) = true
  | .bool => rfl
  | .int => rfl
  | .int64 => rfl
  | .uint8 => rfl
  | .float64 => by cases nz <;> rfl
  | .string => rfl
  | .ptr _ => rfl
  | .slice _ => rfl
  | .map _ _ => rfl
  | .func _ _ _ => rfl
  | .iface => rfl
  | .named _ t => by
    simp only [zeroValue, isZero]
    exact isZero_zeroValue nz t
  | .array n e => by
    have h := isZero_zeroValue nz e
    simp only [zeroValue, isZero]
    induction n with
    | zero => rfl
    | succ n ih => simp [List.replicate_succ, allZero, h, ih]
  | .struct _ fs => by
    simp only [zeroValue, isZero]
    exact allZero_zeroValues nz fs
theorem allZero_zeroValues (nz : Bool) : ∀ ts : List GoType, allZero nz (zeroValues ts) = true
  | [] => rfl
  | t :: ts => by
    simp [zeroValues, allZero, isZero_zeroValue nz t, allZero_zeroValues nz ts]
end

mutual
/-- On a well-formed value that holds no negative zero, `IsZero` holds, in
every release of Go, exactly for the zero value of the type of the value. -/
theorem isZero_iff (nz : Bool) : ∀ v : GoValue, v.wf = true → v.settled = true →
    (isZero nz v = true ↔ v = zeroValue v.typ)
  | .nil, h, _ => by simp [GoValue.wf] at h
  | .bool b, _, _ => by cases b <;> simp [isZero, zeroValue, GoValue.typ]
  | .int n, _, _ => by simp [isZero, zeroValue, GoValue.typ]
  | .int64 n, _, _ => by simp [isZero, zeroValue, GoValue.typ]
  | .uint8 b, _, _ => by simp [isZero, zeroValue, GoValue.typ]
  | .float64 b, h, hs => by
    simp only [GoValue.wf, decide_eq_true_eq] at h
    simp only [GoValue.settled, bne_iff_ne, ne_eq] at hs
    simp only [isZero, zeroValue, GoValue.typ, GoValue.float64.injEq]
    exact float_isZero_iff nz b h hs
  | .string s, _, _ => by
    simp [isZero, zeroValue, GoValue.typ, string_length_eq_zero_iff]
  | .ptr e addr, _, _ => by simp [isZero, zeroValue, GoValue.typ]
  | .func _ _ _ r, _, _ => by simp [isZero, zeroValue, GoValue.typ]
  | .iface d, _, _ => by cases d <;> simp [isZero, zeroValue, GoValue.typ, GoValue.isNil]
  | .named n v, h, hs => by
    simp only [GoValue.wf, Bool.and_eq_true] at h
    simp only [GoValue.settled] at hs
    simp only [isZero, zeroValue, GoValue.typ, GoValue.named.injEq, true_and]
    exact isZero_iff nz v h.2 hs
  | .slice e data es, h, _ => by
    simp only [GoValue.wf, Bool.and_eq_true, Bool.or_eq_true, bne_iff_ne, ne_eq,
      List.isEmpty_iff] at h
    simp only [isZero, zeroValue, GoValue.typ, beq_iff_eq, GoValue.slice.injEq, true_and]
    constructor
    · intro hd
      exact ⟨hd, h.1.resolve_left (fun hne => hne hd)⟩
    · exact fun hh => hh.1
  | .map k e r ks vs, h, _ => by
    simp only [GoValue.wf, Bool.and_eq_true, Bool.or_eq_true, bne_iff_ne, ne_eq,
      List.isEmpty_iff, beq_iff_eq] at h
    simp only [isZero, zeroValue, GoValue.typ, beq_iff_eq, GoValue.map.injEq, true_and]
    constructor
    · intro hr
      have hk : ks = [] := h.1.1.1.1.resolve_left (fun hne => hne hr)
      have hv : vs = [] := by
        have := h.1.1.1.2
        rw [hk] at this
        exact List.length_eq_zero.1 this.symm
      exact ⟨hr, hk, hv⟩
    · exact fun hh => hh.1
  | .array e es, h, hs => by
    simp only [GoValue.wf] at h
    simp only [GoValue.settled] at hs
    simp only [isZero, zeroValue, GoValue.typ, GoValue.array.injEq, true_and]
    exact allZero_elems nz e es h hs
  | .struct ds fs, h, hs => by
    simp only [GoValue.wf, Bool.and_eq_true] at h
    simp only [GoValue.settled] at hs
    simp only [isZero, zeroValue, GoValue.typ, GoValue.struct.injEq, true_and]
    exact allZero_fields nz fs h.2 hs
/-- The elements of an array are all zero exactly when the array is the zero
array. -/
theorem allZero_elems (nz : Bool) : ∀ (e : GoType) (vs : List GoValue),
    GoValue.wfAll e vs = true → GoValue.settledAll vs = true →
    (allZero nz vs = true ↔ vs = List.replicate vs.length (zeroValue e))
  | _, [], _, _ => by simp [allZero]
  | e, v :: vs, h, hs => by
    simp only [GoValue.wfAll, Bool.and_eq_true, GoType.beq_iff] at h
    simp only [GoValue.settledAll, Bool.and_eq_true] at hs
    have h1 := isZero_iff nz v h.1.2 hs.1
    have h2 := allZero_elems nz e vs h.2 hs.2
    rw [h.1.1] at h1
    simp only [allZero, Bool.and_eq_true, h1, h2, List.length_cons, List.replicate_succ,
      List.cons.injEq]
/-- The fields of a struct are all zero exactly when the struct is the zero
struct. -/
theorem allZero_fields (nz : Bool) : ∀ vs : List GoValue, GoValue.wfFields vs = true →
    GoValue.settledAll vs = true →
    (allZero nz vs = true ↔ vs = zeroValues (GoValue.typs vs))
  | [], _, _ => by simp [allZero, zeroValues, GoValue.typs]
  | v :: vs, h, hs => by
    simp only [GoValue.wfFields, Bool.and_eq_true] at h
    simp only [GoValue.settledAll, Bool.and_eq_true] at hs
    have h1 := isZero_iff nz v h.1 hs.1
    have h2 := allZero_fields nz vs h.2 hs.2
    simp only [allZero, Bool.and_eq_true, h1, h2, GoValue.typs, zeroValues, List.cons.injEq]
end

theorem isNil_nil : GoValue.nil.isNil = true := rfl

/-- The run of `Assert.Eq` with `nil` on the left is decided by `IsZero`. -/
theorem Assert.Eq_nil_left (L : Lib) (a : T) (assertionfmt : String) (value : GoValue)
    (v : List GoValue) (hn : value.isNil = false) :
    Assert.Eq L a assertionfmt .nil value v
      = if isZero L.NegZeroIsZero value then ⟨.ret true, a⟩
        else ⟨.ret false,
          a.Errorf ("FAIL: " ++ assertionfmt ++ "\nvalue1: %s\nvalue2: %s")
            (v ++ [.string (Repr L .nil), .string (Repr L value)])⟩ := by
  cases hz : isZero L.NegZeroIsZero value <;>
    simp [Assert.Eq, isNil_nil, hn, Outcome.andThen, Value.IsZero, ValueOf, hz]

/-- The run of `Assert.Eq` with `nil` on the right is decided by `IsZero`. -/
theorem Assert.Eq_nil_right (L : Lib) (a : T) (assertionfmt : String) (value : GoValue)
    (v : List GoValue) (hn : value.isNil = false) :
    Assert.Eq L a assertionfmt value .nil v
      = if isZero L.NegZeroIsZero value then ⟨.ret true, a⟩
        else ⟨.ret false,
          a.Errorf ("FAIL: " ++ assertionfmt ++ "\nvalue1: %s\nvalue2: %s")
            (v ++ [.string (Repr L value), .string (Repr L .nil)])⟩ := by
  cases hz : isZero L.NegZeroIsZero value <;>
    simp [Assert.Eq, isNil_nil, hn, Outcome.andThen, Value.IsZero, ValueOf, hz]

/-- Claim C5, the statement as written fails: the negative zero is a valid
`float64` other than the zero value of the type, and with `IsZero` as in Go
1.22 and later `Assert.Eq` on nil and the negative zero returns true and
reports nothing. -/
theorem Assert.Eq_nil_negative_zero :
    (GoValue.float64 negZeroBits).validArg = true
    ∧ GoValue.float64 negZeroBits ≠ zeroValue (GoValue.float64 negZeroBits).typ
    ∧ fragmentLib.NegZeroIsZero = true
    ∧ Assert.Eq fragmentLib T.fresh "x" .nil (.float64 negZeroBits) [] = ⟨.ret true, T.fresh⟩
    ∧ Assert.Eq fragmentLib T.fresh "x" (.float64 negZeroBits) .nil [] = ⟨.ret true, T.fresh⟩ := by
  refine ⟨by decide, ?_, rfl, rfl, rfl⟩
  simp [zeroValue, GoValue.typ, negZeroBits]

/-- Claim C5, amended. When exactly one argument of `Assert.Eq` is the nil
interface and the other is a valid value `value`: if `value` is the zero value
of its dynamic type, the call returns true and reports nothing; if `value` is
not the zero value, and holds no negative zero and no slice or map that is
empty without being nil, the call returns false and reports one failure. This
holds in every release of Go and on whichever side the nil is. When both
arguments are nil the call returns true and reports nothing. -/
theorem Assert.Eq_nil_iff_zero (L : Lib) (a : T) (assertionfmt : String) (value : GoValue)
    (v : List GoValue) (hn : value.isNil = false) (hv : value.validArg = true) :
    (value = zeroValue value.typ →
        Assert.Eq L a assertionfmt .nil value v = ⟨.ret true, a⟩
        ∧ Assert.Eq L a assertionfmt value .nil v = ⟨.ret true, a⟩)
    ∧ (value ≠ zeroValue value.typ → value.settled = true →
        (Assert.Eq L a assertionfmt .nil value v).out = .ret false
        ∧ (Assert.Eq L a assertionfmt .nil value v).t.failures = a.failures + 1
        ∧ (Assert.Eq L a assertionfmt value .nil v).out = .ret false
        ∧ (Assert.Eq L a assertionfmt value .nil v).t.failures = a.failures + 1)
    ∧ Assert.Eq L a assertionfmt .nil .nil v = ⟨.ret true, a⟩ := by
  have hwf : value.wf = true := by
    simp only [GoValue.validArg, hn, Bool.false_or, Bool.and_eq_true] at hv
    exact hv.2
  rw [Assert.Eq_nil_left L a assertionfmt value v hn,
    Assert.Eq_nil_right L a assertionfmt value v hn]
  refine ⟨?_, ?_, rfl⟩
  · intro h
    have hz : isZero L.NegZeroIsZero value = true := by
      rw [h]
      exact isZero_zeroValue L.NegZeroIsZero value.typ
    rw [hz]
    exact ⟨rfl, rfl⟩
  · intro h hs
    have hz := isZero_iff L.NegZeroIsZero value hwf hs
    have hf : isZero L.NegZeroIsZero value = false := by
      cases hb : isZero L.NegZeroIsZero value
      · rfl
      · exact absurd (hz.1 hb) h
    rw [hf]
    simp [T.failures_Errorf]

/-- Claim C5, amended, at concrete inputs: `nil` against the `int` 0 is equal,
`nil` against the `int` 7 is not and one failure is reported. -/
theorem Assert.Eq_nil_iff_zero_witness :
    (Assert.Eq fragmentLib T.fresh "x" .nil (.int 0) [] = ⟨.ret true, T.fresh⟩
      ∧ Assert.Eq fragmentLib T.fresh "x" (.int 0) .nil [] = ⟨.ret true, T.fresh⟩)
    ∧ ((Assert.Eq fragmentLib T.fresh "x" .nil (.int 7) []).out = .ret false
      ∧ (Assert.Eq fragmentLib T.fresh "x" .nil (.int 7) []).t.failures = T.fresh.failures + 1
      ∧ (Assert.Eq fragmentLib T.fresh "x" (.int 7) .nil []).out = .ret false
      ∧ (Assert.Eq fragmentLib T.fresh "x" (.int 7) .nil []).t.failures
          = T.fresh.failures + 1) :=
  ⟨(Assert.Eq_nil_iff_zero fragmentLib T.fresh "x" (.int 0) [] rfl (by decide)).1 rfl,
    (Assert.Eq_nil_iff_zero fragmentLib T.fresh "x" (.int 7) [] rfl (by decide)).2.1
      (by simp [zeroValue, GoValue.typ]) rfl⟩

end Testutil
namespace Testutil

/-! ## `Assert.Eq` on a value and itself -/

theorem float64Eq_self (a : Nat) (h : float64IsNaN a = false) : float64Eq a a = true := by
  simp [float64Eq, h]

mutual
/-- The operator `==` finds a regular value equal to itself. -/
theorem equal_self : ∀ v : GoValue, v.regular = true → equal v v = .ok true
  | .nil, _ => rfl
  | .bool _, _ => by simp [equal]
  | .int _, _ => by simp [equal]
  | .int64 _, _ => by simp [equal]
  | .uint8 _, _ => by simp [equal]
  | .string _, _ => by simp [equal]
  | .ptr _ _, _ => by simp [equal]
  | .float64 b, h => by
    simp only [GoValue.regular, Bool.not_eq_true'] at h
    simp [equal, float64Eq_self b h]
  | .slice _ _ _, h => by simp [GoValue.regular] at h
  | .map _ _ _ _ _, h => by simp [GoValue.regular] at h
  | .func _ _ _ _, h => by simp [GoValue.regular] at h
  | .array _ es, h => by
    simp only [GoValue.regular] at h
    simpa [equal] using equalAll_self es h
  | .struct _ fs, h => by
    simp only [GoValue.regular] at h
    simpa [equal] using equalAll_self fs h
  | .named _ v, h => by
    simp only [GoValue.regular] at h
    simpa [equal] using equal_self v h
  | .iface d, h => by
    simp only [GoValue.regular, Bool.or_eq_true, Bool.and_eq_true] at h
    cases hd : d.isNil
    · have h2 := h.resolve_left (by simp [hd])
      have ih := equal_self d h2.2
      simp [equal, TypeOf, hd, typeEq, GoType.beq_self, h2.1, ih]
    · simp [equal, TypeOf, hd, typeEq]
/-- The operator `==` finds a list of regular values equal to itself. -/
theorem equalAll_self : ∀ vs : List GoValue, GoValue.regularAll vs = true →
    equalAll vs vs = .ok true
  | [], _ => rfl
  | v :: vs, h => by
    simp only [GoValue.regularAll, Bool.and_eq_true] at h
    simp [equalAll, equal_self v h.1, equalAll_self vs h.2]
end

/-- Claim C3, the statement as written fails: `float64` is a comparable type,
and `Assert.Eq` on a NaN and itself returns false and reports a failure. -/
theorem Assert.Eq_self_NaN :
    (GoValue.float64 nanBits).typ.Comparable = true
    ∧ (GoValue.float64 nanBits).validArg = true
    ∧ (Assert.Eq fragmentLib T.fresh "x" (.float64 nanBits) (.float64 nanBits) []).out
        = .ret false
    ∧ (Assert.Eq fragmentLib T.fresh "x" (.float64 nanBits) (.float64 nanBits) []).t.failures
        = 1 := by
  exact ⟨rfl, by decide, rfl, rfl⟩

/-- Claim C3, amended. `Assert.Eq` on a value and itself returns true and
reports nothing when the value is nil, or a byte slice, or of a comparable type
and regular (no NaN inside, and no interface-typed element or field holding a
value of a type that is not comparable); it returns false and reports one
failure when the value is of an unsupported type, neither comparable nor a
byte slice. -/
theorem Assert.Eq_self (L : Lib) (a : T) (assertionfmt : String) (value : GoValue)
    (v : List GoValue) :
    ((value.isNil = true ∨ value.asBytes.isSome = true
        ∨ (value.typ.Comparable = true ∧ value.regular = true))
      → Assert.Eq L a assertionfmt value value v = ⟨.ret true, a⟩)
    ∧ ((value.isNil = false ∧ value.typ.Comparable = false ∧ value.asBytes = none)
      → (Assert.Eq L a assertionfmt value value v).out = .ret false
        ∧ (Assert.Eq L a assertionfmt value value v).t.failures = a.failures + 1) := by
  constructor
  · intro h
    cases hn : value.isNil
    · have hT : typeEq (TypeOf value) (TypeOf value) = true := by
        simp [TypeOf, hn, typeEq, GoType.beq_self]
      cases hc : value.typ.Comparable
      · cases hb : value.asBytes with
        | none => simp [hn, hc, hb] at h
        | some b =>
          simp [Assert.Eq, hn, hT, Assert.eqSameType, ValueOf, Value.CanAddr, Outcome.andThen,
            hc, hb, bytesEqual, Assert.eqReport]
      · have hr : value.regular = true := by
          rcases h with h | h | h
          · simp [hn] at h
          · cases value <;> simp [GoValue.asBytes, GoValue.typ, GoType.Comparable] at h hc
          · exact h.2
        simp [Assert.Eq, hn, hT, Assert.eqSameType, ValueOf, Value.CanAddr, Outcome.andThen,
          hc, ifaceEq, equal_self value hr, Assert.eqReport]
    · simp [Assert.Eq, hn]
  · rintro ⟨hn, hc, hb⟩
    have hT : typeEq (TypeOf value) (TypeOf value) = true := by
      simp [TypeOf, hn, typeEq, GoType.beq_self]
    simp [Assert.Eq, hn, hT, Assert.eqSameType, ValueOf, Value.CanAddr, Outcome.andThen,
      hc, hb, T.failures_Errorf]

/-- Claim C3, amended, at concrete inputs: a struct with an `int` field and an
interface-typed field holding a string equals itself, and a map does not. -/
theorem Assert.Eq_self_witness :
    Assert.Eq fragmentLib T.fresh "x" (.struct [⟨"n", "", false⟩, ⟨"f", "", false⟩] [.int 1, .iface (.string "a")])
        (.struct [⟨"n", "", false⟩, ⟨"f", "", false⟩] [.int 1, .iface (.string "a")]) [] = ⟨.ret true, T.fresh⟩
    ∧ (Assert.Eq fragmentLib T.fresh "x" (.map .string .int 1 [] []) (.map .string .int 1 [] [])
        []).out = .ret false :=
  ⟨(Assert.Eq_self fragmentLib T.fresh "x" (.struct [⟨"n", "", false⟩, ⟨"f", "", false⟩] [.int 1, .iface (.string "a")]) []).1
      (Or.inr (Or.inr ⟨by decide, by decide⟩)),
    ((Assert.Eq_self fragmentLib T.fresh "x" (.map .string .int 1 [] []) []).2
      ⟨rfl, rfl, rfl⟩).1⟩

/-! ## `Assert.Eq` on nil and a slice that is not nil -/

/-- Claim C4, what the code does. `Assert.Eq` on the nil interface and a slice
that is not nil, the empty byte slice `[]byte{}` included, returns false and
reports one failure, on whichever side the nil is: `IsZero` is false for every
slice that is not nil. On the nil interface and a nil slice it returns true. -/
theorem Assert.Eq_nil_empty_slice (L : Lib) (a : T) (assertionfmt : String) (e : GoType)
    (data : Nat) (elems v : List GoValue) :
    (Assert.Eq L a assertionfmt .nil (.slice e (data + 1) elems) v).out = .ret false
    ∧ (Assert.Eq L a assertionfmt .nil (.slice e (data + 1) elems) v).t.failures
        = a.failures + 1
    ∧ (Assert.Eq L a assertionfmt (.slice e (data + 1) elems) .nil v).out = .ret false
    ∧ (Assert.Eq L a assertionfmt (.slice e (data + 1) elems) .nil v).t.failures
        = a.failures + 1
    ∧ Assert.Eq L a assertionfmt .nil (.slice .uint8 1 []) v
        = ⟨.ret false,
            a.Errorf ("FAIL: " ++ assertionfmt ++ "\nvalue1: %s\nvalue2: %s")
              (v ++ [.string (Repr L .nil), .string (Repr L (.slice .uint8 1 []))])⟩
    ∧ Assert.Eq L a assertionfmt .nil (.slice e 0 []) v = ⟨.ret true, a⟩ := by
  rw [Assert.Eq_nil_left L a assertionfmt (.slice e (data + 1) elems) v rfl,
    Assert.Eq_nil_right L a assertionfmt (.slice e (data + 1) elems) v rfl,
    Assert.Eq_nil_left L a assertionfmt (.slice .uint8 1 []) v rfl,
    Assert.Eq_nil_left L a assertionfmt (.slice e 0 []) v rfl]
  simp [isZero, T.failures_Errorf]

end Testutil
namespace Testutil

/-! ## The boolean and the report -/

theorem isNil_eq_true_iff (v : GoValue) : v.isNil = true ↔ v = .nil := by
  cases v <;> simp [GoValue.isNil]

theorem asBytes_of_typ_eq {x y : GoValue} {b : List Nat} (hx : x.asBytes = some b)
    (hy : y.isNil = false) (ht : x.typ = y.typ) : ∃ c, y.asBytes = some c := by
  have hxt : x.typ = .slice .uint8 := by
    cases x <;> simp [GoValue.asBytes] at hx
    rename_i e _ _
    cases e <;> simp [GoValue.asBytes] at hx
    rfl
  rw [hxt] at ht
  cases y <;> simp [GoValue.typ, GoValue.isNil] at ht hy
  rename_i e _ _
  subst ht
  exact ⟨_, rfl⟩

theorem Assert.agrees_eqReport (L : Lib) (a : T) (assertionfmt : String)
    (value1 value2 : GoValue) (v : List GoValue) (eq : Bool) :
    Assert.agrees a (Assert.eqReport L a assertionfmt value1 value2 v eq) := by
  cases eq
  · exact Or.inr ⟨rfl, by simp [Assert.eqReport, T.failures_Errorf], rfl⟩
  · exact Or.inl ⟨rfl, rfl⟩

/-- Every run of `Assert.Eq` either agrees with its report, or is the panic of
`==` on two values of one comparable type. -/
theorem Assert.Eq_agrees_or_panics (L : Lib) (a : T) (assertionfmt : String)
    (value1 value2 : GoValue) (v : List GoValue) :
    Assert.agrees a (Assert.Eq L a assertionfmt value1 value2 v)
    ∨ ∃ t : GoType, ifaceEq value1 value2 = .error t
        ∧ value1.isNil = false ∧ value2.isNil = false
        ∧ value1.typ = value2.typ ∧ value1.typ.Comparable = true
        ∧ Assert.Eq L a assertionfmt value1 value2 v = ⟨.panic (uncomparable L t), a⟩ := by
  cases hn1 : value1.isNil <;> cases hn2 : value2.isNil
  · -- neither is nil
    cases hT : GoType.beq value1.typ value2.typ
    · left
      refine Or.inr ⟨?_, ?_, ?_⟩ <;>
        simp [Assert.Eq, hn1, hn2, TypeOf, typeEq, hT, T.failures_Errorf, T.failed_Errorf]
    · have hty : value1.typ = value2.typ := (GoType.beq_iff _ _).1 hT
      have hEq : Assert.Eq L a assertionfmt value1 value2 v
          = Assert.eqSameType L a assertionfmt value1 value2 v := by
        simp [Assert.Eq, hn1, hn2, TypeOf, typeEq, hT]
      rw [hEq]
      cases hc : value1.typ.Comparable
      · left
        cases hb : value1.asBytes with
        | none =>
          refine Or.inr ⟨?_, ?_, ?_⟩ <;>
            simp [Assert.eqSameType, ValueOf, Value.CanAddr, Outcome.andThen, hc, hb,
              T.failures_Errorf, T.failed_Errorf]
        | some b1 =>
          obtain ⟨b2, hb2⟩ := asBytes_of_typ_eq hb hn2 hty
          have : Assert.eqSameType L a assertionfmt value1 value2 v
              = Assert.eqReport L a assertionfmt value1 value2 v (bytesEqual b1 b2) := by
            simp [Assert.eqSameType, ValueOf, Value.CanAddr, Outcome.andThen, hc, hb, hb2]
          rw [this]
          exact Assert.agrees_eqReport L a assertionfmt value1 value2 v _
      · cases he : ifaceEq value1 value2 with
        | error t =>
          right
          refine ⟨t, rfl, rfl, rfl, hty, rfl, ?_⟩
          simp [Assert.eqSameType, ValueOf, Value.CanAddr, Outcome.andThen, hc, he]
        | ok eq =>
          left
          have : Assert.eqSameType L a assertionfmt value1 value2 v
              = Assert.eqReport L a assertionfmt value1 value2 v eq := by
            simp [Assert.eqSameType, ValueOf, Value.CanAddr, Outcome.andThen, hc, he]
          rw [this]
          exact Assert.agrees_eqReport L a assertionfmt value1 value2 v _
  · -- only `value2` is nil
    left
    rw [(isNil_eq_true_iff value2).1 hn2, Assert.Eq_nil_right L a assertionfmt value1 v hn1]
    cases isZero L.NegZeroIsZero value1
    · exact Or.inr ⟨rfl, by simp [T.failures_Errorf], rfl⟩
    · exact Or.inl ⟨rfl, rfl⟩
  · -- only `value1` is nil
    left
    rw [(isNil_eq_true_iff value1).1 hn1, Assert.Eq_nil_left L a assertionfmt value2 v hn2]
    cases isZero L.NegZeroIsZero value2
    · exact Or.inr ⟨rfl, by simp [T.failures_Errorf], rfl⟩
    · exact Or.inl ⟨rfl, rfl⟩
  · left
    exact Or.inl ⟨by simp [Assert.Eq, hn1, hn2], by simp [Assert.Eq, hn1, hn2]⟩

/-- The run of `Assert.Eq` on the struct `boxedSlice` and itself: the struct
type is comparable, `==` reaches the interface-typed field, whose dynamic type
`[]int` is not comparable, and panics. -/
theorem Assert.Eq_boxedSlice (L : Lib) (a : T) (assertionfmt : String) (v : List GoValue) :
    Assert.Eq L a assertionfmt boxedSlice boxedSlice v
      = ⟨.panic (uncomparable L (.slice .int)), a⟩ := rfl

/-- Claim C11, what the code does. Every call of `Assert.Ok`, `Assert.Err` and
`Assert.NoErr` returns, with true and an untouched test or with false and
exactly one failure reported. A call of `Assert.Eq` does the same, or it is
the panic of `==` on two values of one comparable type, with nothing reported;
that panic occurs for `boxedSlice` against itself, a valid argument, so that
the call does not return and the test is aborted. -/
theorem Assert.agrees_or_panics (L : Lib) (a : T) (assertionfmt errsubstr : String)
    (ok : Bool) (err : Option GoError) (value1 value2 : GoValue) (v : List GoValue) :
    Assert.agrees a (Assert.Ok a assertionfmt ok v)
    ∧ Assert.agrees a (Assert.Err L a assertionfmt errsubstr err v)
    ∧ Assert.agrees a (Assert.NoErr a assertionfmt err v)
    ∧ (Assert.agrees a (Assert.Eq L a assertionfmt value1 value2 v)
        ∨ ∃ t : GoType, ifaceEq value1 value2 = .error t
            ∧ Assert.Eq L a assertionfmt value1 value2 v = ⟨.panic (uncomparable L t), a⟩)
    ∧ boxedSlice.validArg = true
    ∧ (Assert.Eq L a assertionfmt boxedSlice boxedSlice v).out
        = .panic (uncomparable L (.slice .int)) := by
  refine ⟨?_, ?_, ?_, ?_, by decide, rfl⟩
  · cases ok
    · exact Or.inr ⟨rfl, by simp [Assert.Ok, T.failures_Errorf], rfl⟩
    · exact Or.inl ⟨rfl, rfl⟩
  · cases err with
    | none => exact Or.inr ⟨rfl, by simp [Assert.Err, T.failures_Errorf], rfl⟩
    | some e =>
      cases h : Contains (ToLower L e.Error) (ToLower L errsubstr)
      · refine Or.inr ⟨?_, ?_, ?_⟩ <;> simp [Assert.Err, h, T.failures_Errorf, T.failed_Errorf]
      · refine Or.inl ⟨?_, ?_⟩ <;> simp [Assert.Err, h]
  · cases err with
    | none => exact Or.inl ⟨rfl, rfl⟩
    | some e => exact Or.inr ⟨rfl, by simp [Assert.NoErr, T.failures_Errorf], rfl⟩
  · rcases Assert.Eq_agrees_or_panics L a assertionfmt value1 value2 v with h | ⟨t, h1, -, -, -, -, h2⟩
    · exact Or.inl h
    · exact Or.inr ⟨t, h1, h2⟩

/-- Claim C12, what the code does. `Assert.Eq` panics on `boxedSlice`, the
struct `struct{ f interface{} }{ []int{} }`, against itself: both values are
valid and not nil, their type is the same and `Comparable` reports true for
it, so `value1 == value2` is evaluated, and it panics with `comparing
uncomparable type []int`. The call returns no boolean and reports nothing. -/
theorem Assert.Eq_panics (L : Lib) (a : T) (assertionfmt : String) (v : List GoValue) :
    boxedSlice.validArg = true
    ∧ boxedSlice.typ.Comparable = true
    ∧ Assert.Eq L a assertionfmt boxedSlice boxedSlice v
        = ⟨.panic (uncomparable L (.slice .int)), a⟩
    ∧ ∀ b : Bool, (Assert.Eq L a assertionfmt boxedSlice boxedSlice v).out ≠ .ret b := by
  refine ⟨by decide, by decide, rfl, ?_⟩
  intro b h
  rw [Assert.Eq_boxedSlice] at h
  cases h

end Testutil
namespace Testutil

/-! ## `RecoverAsFail` -/

/-- Claim C13. When the body of a test that defers `RecoverAsFail` panics with
a payload that is not nil, the test function returns to its caller (the panic
is not raised again), and the test state is the one the body left, with the
payload logged, then the stack trace logged, and the test marked as failed.
When the body returns, the test function returns and the test state is the one
the body left: nothing is logged and the test is not marked as failed. -/
theorem RecoverAsFail_spec (L : Lib) (body : T → Run Unit) (t : T) (p : Payload)
    (hp : p.isNil = false) :
    ((body t).out = .panic p →
        TestThing L body t
          = ⟨.ret (), { output := (body t).t.output
                          ++ [Entry.log [p], Entry.log [.value (.string L.Stack)]],
                        failed := true }⟩
        ∧ RecoverAsFail L (some p) (body t).t = TestThing L body t)
    ∧ ((body t).out = .ret () → TestThing L body t = ⟨.ret (), (body t).t⟩)
    ∧ RecoverAsFail L none t = ⟨.ret (), t⟩ := by
  refine ⟨?_, ?_, rfl⟩
  · intro h
    simp [TestThing, h, RecoverAsFail, hp, T.Log, T.Fail]
  · intro h
    simp [TestThing, h, RecoverAsFail]

/-- Claim C13 at concrete inputs: a body that panics with `Oh no, a lolcat!`
leaves a failed test with two log lines, and a body that returns leaves the
test as it was. -/
theorem RecoverAsFail_spec_witness :
    (TestThing fragmentLib ExamplePanic T.fresh
        = ⟨.ret (), { output := [Entry.log [.value (.string "Oh no, a lolcat!")],
                                  Entry.log [.value (.string fragmentLib.Stack)]],
                      failed := true }⟩
      ∧ RecoverAsFail fragmentLib (some (.value (.string "Oh no, a lolcat!")))
          (ExamplePanic T.fresh).t = TestThing fragmentLib ExamplePanic T.fresh)
    ∧ RecoverAsFail fragmentLib none T.fresh = ⟨.ret (), T.fresh⟩ :=
  have h := RecoverAsFail_spec fragmentLib ExamplePanic T.fresh
    (.value (.string "Oh no, a lolcat!")) rfl
  ⟨h.1 rfl, h.2.2⟩

/-! ## The address short-circuit of `Assert.Eq` -/

/-- Claim C15, the statement as written fails: `Assert.Eq` on the same map
passed twice does not return true; it reports that it cannot compare values of
the type, once, and returns false. -/
theorem Assert.Eq_same_map :
    (emptyMap 1).validArg = true
    ∧ (Assert.Eq fragmentLib T.fresh "x" (emptyMap 1) (emptyMap 1) []).out = .ret false
    ∧ Assert.Eq fragmentLib T.fresh "x" (emptyMap 1) (emptyMap 1) []
        = ⟨.ret false,
            T.fresh.Errorf "FAIL: x; assert.Eq can not compare values of type %T"
              [emptyMap 1]⟩ :=
  ⟨by decide, rfl, rfl⟩

/-- Claim C15, amended. No short-circuit takes place: the condition
`v1.CanAddr() && v1.UnsafeAddr() == v2.UnsafeAddr()` is false for every pair of
arguments, because a `Value` made by `reflect.ValueOf` is never addressable,
and the comparability check decides. The same pointer passed twice is found
equal by `==`; the same map passed twice, and the same slice of `int` passed
twice, are values of a type `Assert.Eq` does not accept: the call reports that
it cannot compare values of the type, and returns false. -/
theorem Assert.Eq_same_reference (L : Lib) (a : T) (assertionfmt : String)
    (value1 value2 : GoValue) (k e : GoType) (ref : Nat) (keys vals elems v : List GoValue) :
    Outcome.andThen (ValueOf value1).CanAddr ((ValueOf value1).sameAddr (ValueOf value2))
      = .ret false
    ∧ Assert.Eq L a assertionfmt (.ptr e ref) (.ptr e ref) v = ⟨.ret true, a⟩
    ∧ Assert.Eq L a assertionfmt (.map k e ref keys vals) (.map k e ref keys vals) v
        = ⟨.ret false,
            a.Errorf ("FAIL: " ++ assertionfmt ++ "; assert.Eq can not compare values of type %T")
              (v ++ [.map k e ref keys vals])⟩
    ∧ Assert.Eq L a assertionfmt (.slice .int ref elems) (.slice .int ref elems) v
        = ⟨.ret false,
            a.Errorf ("FAIL: " ++ assertionfmt ++ "; assert.Eq can not compare values of type %T")
              (v ++ [.slice .int ref elems])⟩ := by
  refine ⟨rfl, ?_, ?_, ?_⟩
  · simp [Assert.Eq, GoValue.isNil, TypeOf, typeEq, GoValue.typ, GoType.beq_self,
      Assert.eqSameType, ValueOf, Value.CanAddr, Outcome.andThen, GoType.Comparable,
      ifaceEq, equal, Assert.eqReport]
  · simp [Assert.Eq, GoValue.isNil, TypeOf, typeEq, GoValue.typ, GoType.beq_self,
      Assert.eqSameType, ValueOf, Value.CanAddr, Outcome.andThen, GoType.Comparable,
      GoValue.asBytes]
  · simp [Assert.Eq, GoValue.isNil, TypeOf, typeEq, GoValue.typ, GoType.beq_self,
      Assert.eqSameType, ValueOf, Value.CanAddr, Outcome.andThen, GoType.Comparable,
      GoValue.asBytes]

/-! ## `Assert.Eq` is not transitive -/

theorem isNil_zeroValue (t : GoType) : (zeroValue t).isNil = false := by
  cases t <;> rfl

/-- Claim C17. `Assert.Eq` is not transitive: it returns true on the `int` 0
and nil, true on nil and the empty string, and false on the `int` 0 and the
empty string. The nil interface is accepted as equal to the zero value of every
type. -/
theorem Assert.Eq_not_transitive (L : Lib) (a : T) (assertionfmt : String)
    (v : List GoValue) :
    (∃ x y z : GoValue,
        x.validArg = true ∧ y.validArg = true ∧ z.validArg = true
        ∧ (Assert.Eq L a assertionfmt x y v).out = .ret true
        ∧ (Assert.Eq L a assertionfmt y z v).out = .ret true
        ∧ (Assert.Eq L a assertionfmt x z v).out = .ret false)
    ∧ (Assert.Eq L a assertionfmt (.int 0) .nil v).out = .ret true
    ∧ (Assert.Eq L a assertionfmt .nil (.string "") v).out = .ret true
    ∧ (Assert.Eq L a assertionfmt (.int 0) (.string "") v).out = .ret false
    ∧ ∀ t : GoType, Assert.Eq L a assertionfmt .nil (zeroValue t) v = ⟨.ret true, a⟩ := by
  have h1 : (Assert.Eq L a assertionfmt (.int 0) .nil v).out = .ret true := rfl
  have h2 : (Assert.Eq L a assertionfmt .nil (.string "") v).out = .ret true := rfl
  have h3 : (Assert.Eq L a assertionfmt (.int 0) (.string "") v).out = .ret false := rfl
  refine ⟨⟨.int 0, .nil, .string "", by decide, by decide, by decide, h1, h2, h3⟩,
    h1, h2, h3, ?_⟩
  intro t
  rw [Assert.Eq_nil_left L a assertionfmt (zeroValue t) v (isNil_zeroValue t),
    isZero_zeroValue L.NegZeroIsZero t]
  rfl

/-! ## `Assert.Panic` on a pattern that does not compile -/

/-- Claim C18. When the pattern, with `(?i)` put before it, is rejected by the
compiler of regular expressions, `Assert.Panic` panics with the message of
`regexp.MustCompile`; the test state is the one on entry, so that nothing was
reported, and the run is the same whatever the function `f` is: it was never
called. -/
theorem Assert.Panic_invalid_pattern (L : Lib) (a : T) (expectedPanicRegExp : String)
    (f : T → Run Unit) (e : String)
    (he : L.Compile ("(?i)" ++ expectedPanicRegExp) = .error e) :
    Assert.Panic L a expectedPanicRegExp f
      = ⟨.panic (.value (.string
          ("regexp: Compile(" ++ L.Quote ("(?i)" ++ expectedPanicRegExp) ++ "): " ++ e))), a⟩
    ∧ (Assert.Panic L a expectedPanicRegExp f).t = a
    ∧ ∀ g : T → Run Unit,
        Assert.Panic L a expectedPanicRegExp g = Assert.Panic L a expectedPanicRegExp f := by
  have key : ∀ g : T → Run Unit, Assert.Panic L a expectedPanicRegExp g
      = ⟨.panic (.value (.string
          ("regexp: Compile(" ++ L.Quote ("(?i)" ++ expectedPanicRegExp) ++ "): " ++ e))), a⟩ := by
    intro g
    simp [Assert.Panic, MustCompile, he]
  refine ⟨key f, ?_, fun g => ?_⟩
  · rw [key f]
  · rw [key g, key f]

/-- Claim C18 at a concrete input: the pattern `(` has an unclosed group; the
function given would report a failure if it were called, and nothing is
reported. -/
theorem Assert.Panic_invalid_pattern_witness :
    (Assert.Panic fragmentLib T.fresh "(" (fun t => ⟨.ret (), t.Errorf "called" []⟩)).t
      = T.fresh :=
  (Assert.Panic_invalid_pattern fragmentLib T.fresh "("
    (fun t => ⟨.ret (), t.Errorf "called" []⟩) "error parsing regexp" rfl).2.1

end Testutil
namespace Testutil

/-! ## `Assert.Eq` is symmetric -/

theorem beq_swap {α : Type} [DecidableEq α] (a b : α) : (a == b) = (b == a) := by
  rw [Bool.eq_iff_iff]
  simp only [beq_iff_eq]
  exact eq_comm

theorem bytesEqual_comm (a b : List Nat) : bytesEqual a b = bytesEqual b a := by
  unfold bytesEqual
  rw [Bool.eq_iff_iff]
  simp only [beq_iff_eq]
  exact eq_comm

theorem float64Eq_comm (a b : Nat) : float64Eq a b = float64Eq b a := by
  unfold float64Eq
  rw [beq_swap a b]
  cases float64IsNaN a <;> cases float64IsNaN b <;> cases (b == a) <;>
    cases (a % 2 ^ 63 == 0) <;> cases (b % 2 ^ 63 == 0) <;> rfl

theorem GoType.beq_comm (a b : GoType) : GoType.beq a b = GoType.beq b a := by
  rw [Bool.eq_iff_iff, GoType.beq_iff, GoType.beq_iff]
  exact eq_comm

theorem typeEq_comm (s t : Option GoType) : typeEq s t = typeEq t s := by
  cases s <;> cases t <;> simp [typeEq, GoType.beq_comm]

theorem wfAll_fields : ∀ (e : GoType) (xs : List GoValue), GoValue.wfAll e xs = true →
    GoValue.wfFields xs = true ∧ GoValue.typs xs = List.replicate xs.length e
  | _, [], _ => ⟨rfl, rfl⟩
  | e, x :: xs, h => by
    simp only [GoValue.wfAll, Bool.and_eq_true, GoType.beq_iff] at h
    have ih := wfAll_fields e xs h.2
    simp [GoValue.wfFields, GoValue.typs, h.1.1, h.1.2, ih.1, ih.2, List.replicate_succ]

mutual
/-- The operator `==` gives the same result, panic included, whichever operand
comes first, on two well-formed values of one type. -/
theorem equal_comm : ∀ (x y : GoValue), x.wf = true → y.wf = true → x.typ = y.typ →
    equal x y = equal y x
  | .nil, _, hx, _, _ => by simp [GoValue.wf] at hx
  | .bool a, y, _, _, ht => by
    cases y <;> simp [GoValue.typ] at ht
    simp [equal, beq_swap a]
  | .int a, y, _, _, ht => by
    cases y <;> simp [GoValue.typ] at ht
    simp [equal, beq_swap a]
  | .int64 a, y, _, _, ht => by
    cases y <;> simp [GoValue.typ] at ht
    simp [equal, beq_swap a]
  | .uint8 a, y, _, _, ht => by
    cases y <;> simp [GoValue.typ] at ht
    simp [equal, beq_swap a]
  | .float64 a, y, _, _, ht => by
    cases y <;> simp [GoValue.typ] at ht
    simp [equal, float64Eq_comm a]
  | .string a, y, _, _, ht => by
    cases y <;> simp [GoValue.typ] at ht
    simp [equal, beq_swap a]
  | .ptr _ a, y, _, _, ht => by
    cases y <;> simp [GoValue.typ] at ht
    simp [equal, beq_swap a]
  | .slice e _ _, y, _, _, ht => by
    cases y <;> simp [GoValue.typ] at ht
    simp [equal, ht]
  | .map k e _ _ _, y, _, _, ht => by
    cases y <;> simp [GoValue.typ] at ht
    simp [equal, ht]
  | .func _ _ _ _, y, _, _, ht => by
    cases y <;> simp [GoValue.typ] at ht
    simp [equal, ht]
  | .named n a, y, hx, hy, ht => by
    cases y <;> simp [GoValue.typ] at ht
    rename_i m b
    simp only [GoValue.wf, Bool.and_eq_true] at hx hy
    simpa [equal] using equal_comm a b hx.2 hy.2 ht.2
  | .array e xs, y, hx, hy, ht => by
    cases y <;> simp [GoValue.typ] at ht
    rename_i e2 ys
    simp only [GoValue.wf] at hx hy
    obtain ⟨h1, h2⟩ := wfAll_fields e xs hx
    obtain ⟨h3, h4⟩ := wfAll_fields e2 ys hy
    have : GoValue.typs xs = GoValue.typs ys := by rw [h2, h4, ht.1, ht.2]
    simpa [equal] using equalAll_comm xs ys h1 h3 this
  | .struct _ xs, y, hx, hy, ht => by
    cases y <;> simp [GoValue.typ] at ht
    rename_i es ys
    simp only [GoValue.wf, Bool.and_eq_true] at hx hy
    simpa [equal] using equalAll_comm xs ys hx.2 hy.2 ht.2
  | .iface a, y, hx, hy, ht => by
    cases y <;> simp [GoValue.typ] at ht
    · simp [GoValue.wf] at hy
    rename_i b
    simp only [GoValue.wf, Bool.or_eq_true, Bool.and_eq_true] at hx hy
    simp only [equal]
    rw [typeEq_comm (TypeOf b) (TypeOf a)]
    cases hna : a.isNil <;> cases hnb : b.isNil
    · have ha := (hx.resolve_left (by simp [hna])).2
      have hb := (hy.resolve_left (by simp [hnb])).2
      cases hT : GoType.beq a.typ b.typ
      · simp [TypeOf, hna, hnb, typeEq, hT]
      · have hty : a.typ = b.typ := (GoType.beq_iff _ _).1 hT
        have ih := equal_comm a b ha hb hty
        simp [TypeOf, hna, hnb, typeEq, hT, ← hty, ih]
    · simp [TypeOf, hna, hnb, typeEq]
    · simp [TypeOf, hna, hnb, typeEq]
    · simp [TypeOf, hna, hnb, typeEq]
/-- The operator `==` on elements or fields, whichever list comes first. -/
theorem equalAll_comm : ∀ (xs ys : List GoValue), GoValue.wfFields xs = true →
    GoValue.wfFields ys = true → GoValue.typs xs = GoValue.typs ys →
    equalAll xs ys = equalAll ys xs
  | [], [], _, _, _ => rfl
  | [], _ :: _, _, _, _ => rfl
  | _ :: _, [], _, _, _ => rfl
  | x :: xs, y :: ys, hx, hy, ht => by
    simp only [GoValue.wfFields, Bool.and_eq_true] at hx hy
    simp only [GoValue.typs, List.cons.injEq] at ht
    have h1 := equal_comm x y hx.1 hy.1 ht.1
    have h2 := equalAll_comm xs ys hx.2 hy.2 ht.2
    simp only [equalAll, h1, h2]
end

theorem Assert.eqReport_out (L : Lib) (a : T) (assertionfmt : String)
    (value1 value2 : GoValue) (v : List GoValue) (eq : Bool) :
    (Assert.eqReport L a assertionfmt value1 value2 v eq).out = .ret eq := by
  cases eq <;> rfl

/-- Claim C16. `Assert.Eq` is symmetric: on every pair of valid arguments the
call ends the same way in both orders, with the same boolean when it
returns. -/
theorem Assert.Eq_symmetric (L : Lib) (a : T) (assertionfmt : String) (x y : GoValue)
    (v : List GoValue) (hx : x.validArg = true) (hy : y.validArg = true) :
    (Assert.Eq L a assertionfmt x y v).out = (Assert.Eq L a assertionfmt y x v).out := by
  cases hn1 : x.isNil <;> cases hn2 : y.isNil
  · have hwx : x.wf = true := by
      simp only [GoValue.validArg, hn1, Bool.false_or, Bool.and_eq_true] at hx
      exact hx.2
    have hwy : y.wf = true := by
      simp only [GoValue.validArg, hn2, Bool.false_or, Bool.and_eq_true] at hy
      exact hy.2
    cases hT : GoType.beq x.typ y.typ
    · have hT2 : GoType.beq y.typ x.typ = false := by rw [GoType.beq_comm]; exact hT
      simp [Assert.Eq, hn1, hn2, TypeOf, typeEq, hT, hT2]
    · have hT2 : GoType.beq y.typ x.typ = true := by rw [GoType.beq_comm]; exact hT
      have hty : x.typ = y.typ := (GoType.beq_iff _ _).1 hT
      have e1 : Assert.Eq L a assertionfmt x y v = Assert.eqSameType L a assertionfmt x y v := by
        simp [Assert.Eq, hn1, hn2, TypeOf, typeEq, hT]
      have e2 : Assert.Eq L a assertionfmt y x v = Assert.eqSameType L a assertionfmt y x v := by
        simp [Assert.Eq, hn1, hn2, TypeOf, typeEq, hT2]
      rw [e1, e2]
      cases hc : x.typ.Comparable
      · have hc2 : y.typ.Comparable = false := by rw [← hty]; exact hc
        cases hb : x.asBytes with
        | none =>
          cases hb2 : y.asBytes with
          | none =>
            simp [Assert.eqSameType, ValueOf, Value.CanAddr, Outcome.andThen, hc, hc2, hb, hb2]
          | some b2 =>
            obtain ⟨b1, hb1⟩ := asBytes_of_typ_eq hb2 hn1 hty.symm
            rw [hb] at hb1
            cases hb1
        | some b1 =>
          obtain ⟨b2, hb2⟩ := asBytes_of_typ_eq hb hn2 hty
          simp only [Assert.eqSameType, ValueOf, Value.CanAddr, Outcome.andThen, hc, hc2, hb, hb2,
            Assert.eqReport_out, Bool.false_eq_true, if_false]
          rw [bytesEqual_comm b1 b2]
      · have hc2 : y.typ.Comparable = true := by rw [← hty]; exact hc
        have hi : ifaceEq y x = ifaceEq x y := by
          simp [ifaceEq, TypeOf, hn1, hn2, typeEq, hT, hT2, hc, hc2,
            equal_comm x y hwx hwy hty]
        cases he : ifaceEq x y with
        | error t =>
          simp [Assert.eqSameType, ValueOf, Value.CanAddr, Outcome.andThen, hc, hc2, hi, he]
        | ok eq =>
          simp [Assert.eqSameType, ValueOf, Value.CanAddr, Outcome.andThen, hc, hc2, hi, he,
            Assert.eqReport_out]
  · rw [(isNil_eq_true_iff y).1 hn2, Assert.Eq_nil_right L a assertionfmt x v hn1,
      Assert.Eq_nil_left L a assertionfmt x v hn1]
    cases isZero L.NegZeroIsZero x <;> rfl
  · rw [(isNil_eq_true_iff x).1 hn1, Assert.Eq_nil_right L a assertionfmt y v hn2,
      Assert.Eq_nil_left L a assertionfmt y v hn2]
    cases isZero L.NegZeroIsZero y <;> rfl
  · rw [(isNil_eq_true_iff x).1 hn1, (isNil_eq_true_iff y).1 hn2]

/-- Claim C16 at concrete inputs: a struct against a struct with another
second field, and nil against the empty string. -/
theorem Assert.Eq_symmetric_witness :
    (Assert.Eq fragmentLib T.fresh "x" (.struct [⟨"n", "", false⟩, ⟨"f", "", false⟩] [.int 1, .iface (.string "a")])
        (.struct [⟨"n", "", false⟩, ⟨"f", "", false⟩] [.int 1, .iface (.string "b")]) []).out
      = (Assert.Eq fragmentLib T.fresh "x" (.struct [⟨"n", "", false⟩, ⟨"f", "", false⟩] [.int 1, .iface (.string "b")])
        (.struct [⟨"n", "", false⟩, ⟨"f", "", false⟩] [.int 1, .iface (.string "a")]) []).out
    ∧ (Assert.Eq fragmentLib T.fresh "x" .nil (.string "") []).out
      = (Assert.Eq fragmentLib T.fresh "x" (.string "") .nil []).out :=
  ⟨Assert.Eq_symmetric fragmentLib T.fresh "x" (.struct [⟨"n", "", false⟩, ⟨"f", "", false⟩] [.int 1, .iface (.string "a")])
      (.struct [⟨"n", "", false⟩, ⟨"f", "", false⟩] [.int 1, .iface (.string "b")]) [] (by decide) (by decide),
    Assert.Eq_symmetric fragmentLib T.fresh "x" .nil (.string "") [] (by decide) (by decide)⟩

end Testutil
namespace Testutil

/-! ## `Repr` on a map with string keys -/

theorem char_toNat_inj {c d : Char} (h : c.toNat = d.toNat) : c = d := by
  rw [← Char.ofNat_toNat c, ← Char.ofNat_toNat d, h]

theorem leChars_total : ∀ a b : List Char, leChars a b = true ∨ leChars b a = true
  | [], _ => Or.inl rfl
  | _ :: _, [] => Or.inr rfl
  | c :: cs, d :: ds => by
    have ih := leChars_total cs ds
    simp only [leChars, Bool.or_eq_true, decide_eq_true_eq, Bool.and_eq_true, beq_iff_eq]
    rcases Nat.lt_trichotomy c.toNat d.toNat with h | h | h
    · exact Or.inl (Or.inl h)
    · rcases ih with ih | ih
      · exact Or.inl (Or.inr ⟨h, ih⟩)
      · exact Or.inr (Or.inr ⟨h.symm, ih⟩)
    · exact Or.inr (Or.inl h)

theorem leChars_trans : ∀ a b c : List Char, leChars a b = true → leChars b c = true →
    leChars a c = true
  | [], _, _, _, _ => rfl
  | _ :: _, [], _, h, _ => by simp [leChars] at h
  | _ :: _, _ :: _, [], _, h => by simp [leChars] at h
  | x :: xs, y :: ys, z :: zs, h1, h2 => by
    have ih := leChars_trans xs ys zs
    simp only [leChars, Bool.or_eq_true, decide_eq_true_eq, Bool.and_eq_true,
      beq_iff_eq] at h1 h2 ⊢
    rcases h1 with h1 | ⟨e1, h1⟩ <;> rcases h2 with h2 | ⟨e2, h2⟩
    · exact Or.inl (by omega)
    · exact Or.inl (by omega)
    · exact Or.inl (by omega)
    · exact Or.inr ⟨by omega, ih h1 h2⟩

theorem leChars_antisymm : ∀ a b : List Char, leChars a b = true → leChars b a = true → a = b
  | [], [], _, _ => rfl
  | [], _ :: _, _, h => by simp [leChars] at h
  | _ :: _, [], h, _ => by simp [leChars] at h
  | x :: xs, y :: ys, h1, h2 => by
    have ih := leChars_antisymm xs ys
    simp only [leChars, Bool.or_eq_true, decide_eq_true_eq, Bool.and_eq_true,
      beq_iff_eq] at h1 h2
    rcases h1 with h1 | ⟨e1, h1⟩ <;> rcases h2 with h2 | ⟨e2, h2⟩
    · omega
    · omega
    · omega
    · rw [char_toNat_inj e1, ih h1 h2]

theorem keyLe_sorted_insertionSort (l : List (String × GoValue)) :
    (List.insertionSort keyLe l).Sorted keyLe := by
  haveI : IsTotal (String × GoValue) keyLe := ⟨fun x y => leChars_total x.1.data y.1.data⟩
  haveI : IsTrans (String × GoValue) keyLe :=
    ⟨fun x y z => leChars_trans x.1.data y.1.data z.1.data⟩
  exact List.sorted_insertionSort keyLe l

/-- Two lists of entries with the same entries and no key twice come out of
the sort as the same list. -/
theorem insertionSort_eq_of_perm {l1 l2 : List (String × GoValue)} (hp : l1.Perm l2)
    (hn : (l1.map Prod.fst).Nodup) :
    List.insertionSort keyLe l1 = List.insertionSort keyLe l2 := by
  have p1 := List.perm_insertionSort keyLe l1
  have p2 := List.perm_insertionSort keyLe l2
  have hp12 : (List.insertionSort keyLe l1).Perm (List.insertionSort keyLe l2) :=
    p1.trans (hp.trans p2.symm)
  have strict : ∀ l : List (String × GoValue), l.Perm l1 → l.Sorted keyLe →
      l.Sorted (fun x y => keyLe x y ∧ x.1 ≠ y.1) := by
    intro l hl hs
    have hnl : (l.map Prod.fst).Nodup := (hl.map Prod.fst).nodup_iff.2 hn
    have hne : l.Pairwise (fun x y => x.1 ≠ y.1) := List.pairwise_map.1 hnl
    exact List.Pairwise.and hs hne
  haveI : IsAntisymm (String × GoValue) (fun x y => keyLe x y ∧ x.1 ≠ y.1) :=
    ⟨fun x y h1 h2 => by
      have hd : x.1.data = y.1.data := leChars_antisymm _ _ h1.1 h2.1
      exact absurd (String.ext hd) h1.2⟩
  exact List.eq_of_perm_of_sorted hp12
    (strict _ p1 (keyLe_sorted_insertionSort l1))
    (strict _ (p2.trans hp.symm) (keyLe_sorted_insertionSort l2))

/-- Claim C14, against the formatter modelled from the specification. For a
map with string keys, `Repr` returns the name of the type and, between braces,
the entries in ascending order of their keys: the entries printed are those of
the map, sorted. Two maps of one type with the same entries, whatever the order
in which the runtime iterates over them, get the same string. For the map
`map[string]int{"A": 1, "B": 2}` the string is `map[string]int{"A":1, "B":2}`. -/
theorem Repr_map_sorted (L : Lib) (e : GoType) (ref1 ref2 : Nat)
    (keys1 vals1 keys2 vals2 : List GoValue)
    (hn : ((GoValue.map .string e ref1 keys1 vals1).entries.map Prod.fst).Nodup)
    (hp : (GoValue.map .string e ref1 keys1 vals1).entries.Perm
      (GoValue.map .string e ref2 keys2 vals2).entries) :
    (∃ es : List (String × GoValue),
        es.Perm (GoValue.map .string e ref1 keys1 vals1).entries
        ∧ es.Sorted keyLe
        ∧ Repr (withPretty L) (.map .string e ref1 keys1 vals1)
            = L.TypeString (.map .string e) ++ "\x7b"
                ++ joinEntries (es.map (prettyEntry L)) ++ "\x7d")
    ∧ Repr (withPretty L) (.map .string e ref1 keys1 vals1)
        = Repr (withPretty L) (.map .string e ref2 keys2 vals2)
    ∧ Repr exampleLib (exampleMapAB ref1) = "map[string]int\x7b\"A\":1, \"B\":2\x7d"
    ∧ Repr exampleLib (exampleMapBA ref1) = "map[string]int\x7b\"A\":1, \"B\":2\x7d" := by
  have hR : ∀ (ref : Nat) (keys vals : List GoValue),
      Repr (withPretty L) (.map .string e ref keys vals)
        = L.TypeString (.map .string e) ++ "\x7b"
            ++ joinEntries ((List.insertionSort keyLe
                (GoValue.map .string e ref keys vals).entries).map (prettyEntry L))
            ++ "\x7d" := by
    intro ref keys vals
    rfl
  refine ⟨⟨_, List.perm_insertionSort keyLe _, keyLe_sorted_insertionSort _, hR ref1 keys1 vals1⟩,
    ?_, rfl, rfl⟩
  rw [hR, hR, insertionSort_eq_of_perm hp hn]

/-- Claim C14 at the map of the test file: the two iteration orders hold the
same entries, and `Repr` gives the same string for both. -/
theorem Repr_map_sorted_witness :
    Repr (withPretty fragmentLib) (exampleMapAB 1) = Repr (withPretty fragmentLib) (exampleMapBA 2)
    ∧ Repr exampleLib (exampleMapAB 1) = "map[string]int\x7b\"A\":1, \"B\":2\x7d" :=
  have h := Repr_map_sorted fragmentLib .int 1 2 [.string "A", .string "B"] [.int 1, .int 2]
    [.string "B", .string "A"] [.int 2, .int 1]
    (by decide)
    (List.Perm.swap _ _ _)
  ⟨h.2.1, h.2.2.1⟩

end Testutil
